import Mathlib

set_option maxRecDepth 100000
set_option maxHeartbeats 2000000

/-!
Shallow embedding of the base32 codec (src/base32.rs).

Text and byte buffers are modelled as `List Nat`: each element is the value
of one octet (for encode input / decode output) or of one ASCII character
(for encode output / decode input).  The Rust `Ascii` character type is a
byte, so `'='` is `61`, `'0'` is `48`, and so on.  `u8` arithmetic that can
wrap in the source (`x - b'0'` and the left shifts in the decoder) is
modelled with explicit `% 256`.
-/

namespace Base32

inductive Base32Type where
  | RFC4648Base32
  | CrockfordBase32
  | UnpaddedRFC4648Base32
deriving DecidableEq

/-- `"ABCDEFGHIJKLMNOPQRSTUVWXYZ234567"` as ASCII byte values. -/
def RFC4648_ALPHABET : List Nat :=
  [65, 66, 67, 68, 69, 70, 71, 72, 73, 74, 75, 76, 77, 78, 79, 80, 81, 82,
   83, 84, 85, 86, 87, 88, 89, 90, 50, 51, 52, 53, 54, 55]

/-- `"0123456789ABCDEFGHJKMNPQRSTVWXYZ"` as ASCII byte values. -/
def CROCKFORD_ALPHABET : List Nat :=
  [48, 49, 50, 51, 52, 53, 54, 55, 56, 57, 65, 66, 67, 68, 69, 70, 71, 72,
   74, 75, 77, 78, 80, 81, 82, 83, 84, 86, 87, 88, 89, 90]

/-- The eight quintet index expressions pushed by the encoder for one
zero-filled 5-octet buffer `b0..b4`, verbatim from the source. -/
def quintet0 (b0 : Nat) : Nat := (b0 &&& 0xF8) >>> 3

def quintet1 (b0 b1 : Nat) : Nat :=
  ((b0 &&& 0x07) <<< 2) ||| ((b1 &&& 0xC0) >>> 6)

def quintet2 (b1 : Nat) : Nat := (b1 &&& 0x3E) >>> 1

def quintet3 (b1 b2 : Nat) : Nat :=
  ((b1 &&& 0x01) <<< 4) ||| ((b2 &&& 0xF0) >>> 4)

def quintet4 (b2 b3 : Nat) : Nat :=
  ((b2 &&& 0x0F) <<< 1) ||| (b3 >>> 7)

def quintet5 (b3 : Nat) : Nat := (b3 &&& 0x7C) >>> 2

def quintet6 (b3 b4 : Nat) : Nat :=
  ((b3 &&& 0x03) <<< 3) ||| ((b4 &&& 0xE0) >>> 5)

def quintet7 (b4 : Nat) : Nat := b4 &&& 0x1F

/-- One 5-octet group of the encoder: the eight pushes inside the
`for chunk in data.chunks(5)` loop, with `buf` already zero-filled.
`alphabet[q]` is modelled as `alphabet.getD q 0`; the quintet indices are
always `< 32`, so the default is never taken for the real alphabets. -/
def encode_group (alphabet : List Nat) (b0 b1 b2 b3 b4 : Nat) : List Nat :=
  [alphabet.getD (quintet0 b0) 0,
   alphabet.getD (quintet1 b0 b1) 0,
   alphabet.getD (quintet2 b1) 0,
   alphabet.getD (quintet3 b1 b2) 0,
   alphabet.getD (quintet4 b2 b3) 0,
   alphabet.getD (quintet5 b3) 0,
   alphabet.getD (quintet6 b3 b4) 0,
   alphabet.getD (quintet7 b4) 0]

/-- The encoder's chunk loop: `data.chunks(5)`, each chunk zero-filled to
5 octets (`buf.clone_from_slice(chunk)` over `[0u8, ..5]`). -/
def encode_chunks (alphabet : List Nat) : List Nat → List Nat
  | [] => []
  | [b0] => encode_group alphabet b0 0 0 0 0
  | [b0, b1] => encode_group alphabet b0 b1 0 0 0
  | [b0, b1, b2] => encode_group alphabet b0 b1 b2 0 0
  | [b0, b1, b2, b3] => encode_group alphabet b0 b1 b2 b3 0
  | b0 :: b1 :: b2 :: b3 :: b4 :: rest =>
    encode_group alphabet b0 b1 b2 b3 b4 ++ encode_chunks alphabet rest

/-- `num_extra = 8-(data.len()%5*8+4)/5` from the encoder's tail handling. -/
def num_extra (n : Nat) : Nat := 8 - (n % 5 * 8 + 4) / 5

/-- The alphabet selection at the top of `encode`. -/
def enc_alphabet : Base32Type → List Nat
  | .RFC4648Base32 | .UnpaddedRFC4648Base32 => RFC4648_ALPHABET
  | .CrockfordBase32 => CROCKFORD_ALPHABET

/-- `encode` from src/base32.rs.  The padded branch writes `'='` over the
last `num_extra` positions of `ret` (`ret[len-i] = '='.to_ascii()` for
`i in 1..=num_extra`), which is written here as truncate-and-append. -/
def encode (base32_type : Base32Type) (data : List Nat) : List Nat :=
  let ret := encode_chunks (enc_alphabet base32_type) data
  if data.length % 5 ≠ 0 then
    match base32_type with
    | .UnpaddedRFC4648Base32 | .CrockfordBase32 =>
      ret.take (ret.length - num_extra data.length)
    | .RFC4648Base32 =>
      ret.take (ret.length - num_extra data.length)
        ++ List.replicate (num_extra data.length) 61
  else
    ret

/-- `RFC4648_INV_ALPHABET: [u8, ..43]`; the `-1` sentinel is the `u8`
value `255`. -/
def RFC4648_INV_ALPHABET : List Nat :=
  [255, 255, 26, 27, 28, 29, 30, 31, 255, 255, 255, 255, 255, 0, 255, 255,
   255, 0, 1, 2, 3, 4, 5, 6, 7, 8, 9, 10, 11, 12, 13, 14, 15, 16, 17, 18,
   19, 20, 21, 22, 23, 24, 25]

/-- `CROCKFORD_INV_ALPHABET: [u8, ..43]`; the `-1` sentinel is `255`. -/
def CROCKFORD_INV_ALPHABET : List Nat :=
  [0, 1, 2, 3, 4, 5, 6, 7, 8, 9, 255, 255, 255, 255, 255, 255, 255, 10, 11,
   12, 13, 14, 15, 16, 17, 1, 18, 19, 1, 20, 21, 0, 22, 23, 24, 25, 26, 255,
   27, 28, 29, 30, 31]

/-- `Ascii::to_uppercase`: maps `'a'..'z'` to `'A'..'Z'`, everything else
unchanged. -/
def to_uppercase (c : Nat) : Nat := if 97 ≤ c ∧ c ≤ 122 then c - 32 else c

/-- `Ascii::to_lowercase` (used by the repository's `lower_case` test):
maps `'A'..'Z'` to `'a'..'z'`, everything else unchanged. -/
def to_lowercase (c : Nat) : Nat := if 65 ≤ c ∧ c ≤ 90 then c + 32 else c

/-- One table lookup of the decoder:
`alphabet.get((c.to_uppercase().to_byte()-('0' as u8)) as uint)` with the
match `Some(&-1) | None => return None`.  The `u8` subtraction wraps, hence
`(· + 256 - 48) % 256`. -/
def value_for (table : List Nat) (c : Nat) : Option Nat :=
  match table.get? ((to_uppercase c + 256 - 48) % 256) with
  | none => none
  | some v => if v = 255 then none else some v

/-- The decoder's inner `for (i, &c) in chunk.iter().enumerate()` loop:
looks up every character of one chunk, aborting on the first failure. -/
def lookup_chunk (table : List Nat) : List Nat → Option (List Nat)
  | [] => some []
  | c :: rest =>
    match value_for table c, lookup_chunk table rest with
    | some v, some vs => some (v :: vs)
    | _, _ => none

/-- The five byte reconstructions pushed for one chunk, from the zero-filled
8-entry `buf`.  Left shifts are `u8` shifts in the source, hence `% 256`. -/
def recon5 (buf : List Nat) : List Nat :=
  let q0 := buf.getD 0 0
  let q1 := buf.getD 1 0
  let q2 := buf.getD 2 0
  let q3 := buf.getD 3 0
  let q4 := buf.getD 4 0
  let q5 := buf.getD 5 0
  let q6 := buf.getD 6 0
  let q7 := buf.getD 7 0
  [((q0 <<< 3) % 256) ||| (q1 >>> 2),
   ((q1 <<< 6) % 256) ||| ((q2 <<< 1) % 256) ||| (q3 >>> 4),
   ((q3 <<< 4) % 256) ||| (q4 >>> 1),
   ((q4 <<< 7) % 256) ||| ((q5 <<< 2) % 256) ||| (q6 >>> 3),
   ((q6 <<< 5) % 256) ||| q7]

/-- One chunk of the decoder: look up every present character (missing
positions of a short final chunk stay `0` in `buf`), then reconstruct
5 octets. -/
def decode_group (table : List Nat) (chunk : List Nat) : Option (List Nat) :=
  match lookup_chunk table chunk with
  | none => none
  | some qs => some (recon5 (qs ++ List.replicate (8 - qs.length) 0))

/-- The decoder's `for chunk in data.chunks(8)` loop: a final chunk of
fewer than 8 characters is processed like any other (its missing `buf`
slots stay zero). -/
def decode_chunks (table : List Nat) : List Nat → Option (List Nat)
  | [] => some []
  | [c0] => decode_group table [c0]
  | [c0, c1] => decode_group table [c0, c1]
  | [c0, c1, c2] => decode_group table [c0, c1, c2]
  | [c0, c1, c2, c3] => decode_group table [c0, c1, c2, c3]
  | [c0, c1, c2, c3, c4] => decode_group table [c0, c1, c2, c3, c4]
  | [c0, c1, c2, c3, c4, c5] => decode_group table [c0, c1, c2, c3, c4, c5]
  | [c0, c1, c2, c3, c4, c5, c6] =>
    decode_group table [c0, c1, c2, c3, c4, c5, c6]
  | c0 :: c1 :: c2 :: c3 :: c4 :: c5 :: c6 :: c7 :: rest =>
    match decode_group table [c0, c1, c2, c3, c4, c5, c6, c7],
        decode_chunks table rest with
    | some first, some more => some (first ++ more)
    | _, _ => none

/-- The `=`-stripping loop: scan the last `min(6, data.len())` characters
from the end, stopping at the first that is not `'='`; the number of
characters stripped is therefore the length of the trailing run of `'='`,
capped at `6` (and trivially at `data.len()`). -/
def num_padding (data : List Nat) : Nat :=
  min ((data.reverse.takeWhile fun c => c == 61).length) (min 6 data.length)

/-- The inverse-alphabet selection at the top of `decode`. -/
def dec_alphabet : Base32Type → List Nat
  | .RFC4648Base32 | .UnpaddedRFC4648Base32 => RFC4648_INV_ALPHABET
  | .CrockfordBase32 => CROCKFORD_INV_ALPHABET

/-- `decode` from src/base32.rs. -/
def decode (base32_type : Base32Type) (data : List Nat) : Option (List Nat) :=
  let unpadded_data_length := data.length - num_padding data
  let output_length := unpadded_data_length * 5 / 8
  match decode_chunks (dec_alphabet base32_type) data with
  | none => none
  | some ret => some (ret.take output_length)

/-- Proof-side helper: `data` zero-filled to a multiple of 5 octets, the
byte list the decoder reconstructs from the encoding of `data` before its
final truncation. -/
def pad_to_5 (l : List Nat) : List Nat :=
  l ++ List.replicate ((5 - l.length % 5) % 5) 0

-- sanity checks against the test vectors in src/base32.rs
example : encode .CrockfordBase32 [0xF8, 0x3E, 0x0F, 0x83, 0xE0]
    = [90, 48, 90, 48, 90, 48, 90, 48] := by decide
example : encode .CrockfordBase32 [0x07, 0xC1, 0xF0, 0x7C, 0x1F]
    = [48, 90, 48, 90, 48, 90, 48, 90] := by decide
example : decode .CrockfordBase32 [90, 48, 90, 48, 90, 48, 90, 48]
    = some [0xF8, 0x3E, 0x0F, 0x83, 0xE0] := by decide
example : encode .RFC4648Base32 [0xF8, 0x3E, 0x7F, 0x83]
    = [55, 65, 55, 72, 55, 65, 89, 61] := by decide
example : encode .UnpaddedRFC4648Base32 [0xF8, 0x3E, 0x7F, 0x83]
    = [55, 65, 55, 72, 55, 65, 89] := by decide
example : decode .RFC4648Base32 [55, 65, 55, 72, 55, 65, 89, 61]
    = some [0xF8, 0x3E, 0x7F, 0x83] := by decide
example : decode .RFC4648Base32 [55, 65, 55, 72, 55, 65, 55, 72]
    = some [0xF8, 0x3E, 0x7F, 0x83, 0xE7] := by decide
example : decode .CrockfordBase32 [73, 105, 76, 108, 79, 111]
    = decode .CrockfordBase32 [49, 49, 49, 49, 48, 48] := by decide
example : decode .CrockfordBase32 [44] = none := by decide
example : decode .RFC4648Base32 [44] = none := by decide
example : decode .RFC4648Base32 [61, 61, 61, 61, 61, 61, 61, 61]
    = some [0] := by decide
example : decode .CrockfordBase32 [65, 66] = some [0x52] := by decide
example : decode .CrockfordBase32 [65, 65] = some [0x52] := by decide

/-! ### Bitwise arithmetic helpers

The masked shifts of the encoder and decoder are converted to `/`, `%`, `*`
on `Nat`, by exhaustive check over the relevant byte or quintet range, so
that `omega` can take over. -/

theorem and_or_disj2 {x d : Nat} (hx : x < 128) (hd : d < 2) :
    x * 2 ||| d = x * 2 + d :=
  (by decide : ∀ x : Fin 128, ∀ d : Fin 2,
    x.val * 2 ||| d.val = x.val * 2 + d.val) ⟨x, hx⟩ ⟨d, hd⟩

theorem and_or_disj4 {x d : Nat} (hx : x < 64) (hd : d < 4) :
    x * 4 ||| d = x * 4 + d :=
  (by decide : ∀ x : Fin 64, ∀ d : Fin 4,
    x.val * 4 ||| d.val = x.val * 4 + d.val) ⟨x, hx⟩ ⟨d, hd⟩

theorem and_or_disj8 {x d : Nat} (hx : x < 32) (hd : d < 8) :
    x * 8 ||| d = x * 8 + d :=
  (by decide : ∀ x : Fin 32, ∀ d : Fin 8,
    x.val * 8 ||| d.val = x.val * 8 + d.val) ⟨x, hx⟩ ⟨d, hd⟩

theorem and_or_disj16 {x d : Nat} (hx : x < 16) (hd : d < 16) :
    x * 16 ||| d = x * 16 + d :=
  (by decide : ∀ x : Fin 16, ∀ d : Fin 16,
    x.val * 16 ||| d.val = x.val * 16 + d.val) ⟨x, hx⟩ ⟨d, hd⟩

theorem and_or_disj32 {x d : Nat} (hx : x < 8) (hd : d < 32) :
    x * 32 ||| d = x * 32 + d :=
  (by decide : ∀ x : Fin 8, ∀ d : Fin 32,
    x.val * 32 ||| d.val = x.val * 32 + d.val) ⟨x, hx⟩ ⟨d, hd⟩

theorem and_or_disj64 {x d : Nat} (hx : x < 4) (hd : d < 64) :
    x * 64 ||| d = x * 64 + d :=
  (by decide : ∀ x : Fin 4, ∀ d : Fin 64,
    x.val * 64 ||| d.val = x.val * 64 + d.val) ⟨x, hx⟩ ⟨d, hd⟩

theorem and_or_disj128 {x d : Nat} (hx : x < 2) (hd : d < 128) :
    x * 128 ||| d = x * 128 + d :=
  (by decide : ∀ x : Fin 2, ∀ d : Fin 128,
    x.val * 128 ||| d.val = x.val * 128 + d.val) ⟨x, hx⟩ ⟨d, hd⟩

theorem enc_e0 {b : Nat} (h : b < 256) : (b &&& 0xF8) >>> 3 = b / 8 :=
  (by decide : ∀ x : Fin 256, (x.val &&& 0xF8) >>> 3 = x.val / 8) ⟨b, h⟩

theorem enc_e1a {b : Nat} (h : b < 256) : (b &&& 0x07) <<< 2 = b % 8 * 4 :=
  (by decide : ∀ x : Fin 256, (x.val &&& 0x07) <<< 2 = x.val % 8 * 4) ⟨b, h⟩

theorem enc_e1b {b : Nat} (h : b < 256) : (b &&& 0xC0) >>> 6 = b / 64 :=
  (by decide : ∀ x : Fin 256, (x.val &&& 0xC0) >>> 6 = x.val / 64) ⟨b, h⟩

theorem enc_e2 {b : Nat} (h : b < 256) : (b &&& 0x3E) >>> 1 = b % 64 / 2 :=
  (by decide : ∀ x : Fin 256, (x.val &&& 0x3E) >>> 1 = x.val % 64 / 2) ⟨b, h⟩

theorem enc_e3a {b : Nat} (h : b < 256) : (b &&& 0x01) <<< 4 = b % 2 * 16 :=
  (by decide : ∀ x : Fin 256, (x.val &&& 0x01) <<< 4 = x.val % 2 * 16) ⟨b, h⟩

theorem enc_e3b {b : Nat} (h : b < 256) : (b &&& 0xF0) >>> 4 = b / 16 :=
  (by decide : ∀ x : Fin 256, (x.val &&& 0xF0) >>> 4 = x.val / 16) ⟨b, h⟩

theorem enc_e4a {b : Nat} (h : b < 256) : (b &&& 0x0F) <<< 1 = b % 16 * 2 :=
  (by decide : ∀ x : Fin 256, (x.val &&& 0x0F) <<< 1 = x.val % 16 * 2) ⟨b, h⟩

theorem enc_e4b {b : Nat} (h : b < 256) : b >>> 7 = b / 128 :=
  (by decide : ∀ x : Fin 256, x.val >>> 7 = x.val / 128) ⟨b, h⟩

theorem enc_e5 {b : Nat} (h : b < 256) : (b &&& 0x7C) >>> 2 = b % 128 / 4 :=
  (by decide : ∀ x : Fin 256, (x.val &&& 0x7C) >>> 2 = x.val % 128 / 4) ⟨b, h⟩

theorem enc_e6a {b : Nat} (h : b < 256) : (b &&& 0x03) <<< 3 = b % 4 * 8 :=
  (by decide : ∀ x : Fin 256, (x.val &&& 0x03) <<< 3 = x.val % 4 * 8) ⟨b, h⟩

theorem enc_e6b {b : Nat} (h : b < 256) : (b &&& 0xE0) >>> 5 = b / 32 :=
  (by decide : ∀ x : Fin 256, (x.val &&& 0xE0) >>> 5 = x.val / 32) ⟨b, h⟩

theorem enc_e7 {b : Nat} (h : b < 256) : b &&& 0x1F = b % 32 :=
  (by decide : ∀ x : Fin 256, x.val &&& 0x1F = x.val % 32) ⟨b, h⟩

theorem dec_d0a {q : Nat} (h : q < 32) : (q <<< 3) % 256 = q * 8 :=
  (by decide : ∀ x : Fin 32, (x.val <<< 3) % 256 = x.val * 8) ⟨q, h⟩

theorem dec_d0b {q : Nat} (h : q < 32) : q >>> 2 = q / 4 :=
  (by decide : ∀ x : Fin 32, x.val >>> 2 = x.val / 4) ⟨q, h⟩

theorem dec_d1a {q : Nat} (h : q < 32) : (q <<< 6) % 256 = q % 4 * 64 :=
  (by decide : ∀ x : Fin 32, (x.val <<< 6) % 256 = x.val % 4 * 64) ⟨q, h⟩

theorem dec_d1b {q : Nat} (h : q < 32) : (q <<< 1) % 256 = q * 2 :=
  (by decide : ∀ x : Fin 32, (x.val <<< 1) % 256 = x.val * 2) ⟨q, h⟩

theorem dec_d1c {q : Nat} (h : q < 32) : q >>> 4 = q / 16 :=
  (by decide : ∀ x : Fin 32, x.val >>> 4 = x.val / 16) ⟨q, h⟩

theorem dec_d2a {q : Nat} (h : q < 32) : (q <<< 4) % 256 = q % 16 * 16 :=
  (by decide : ∀ x : Fin 32, (x.val <<< 4) % 256 = x.val % 16 * 16) ⟨q, h⟩

theorem dec_d2b {q : Nat} (h : q < 32) : q >>> 1 = q / 2 :=
  (by decide : ∀ x : Fin 32, x.val >>> 1 = x.val / 2) ⟨q, h⟩

theorem dec_d3a {q : Nat} (h : q < 32) : (q <<< 7) % 256 = q % 2 * 128 :=
  (by decide : ∀ x : Fin 32, (x.val <<< 7) % 256 = x.val % 2 * 128) ⟨q, h⟩

theorem dec_d3b {q : Nat} (h : q < 32) : (q <<< 2) % 256 = q * 4 :=
  (by decide : ∀ x : Fin 32, (x.val <<< 2) % 256 = x.val * 4) ⟨q, h⟩

theorem dec_d3c {q : Nat} (h : q < 32) : q >>> 3 = q / 8 :=
  (by decide : ∀ x : Fin 32, x.val >>> 3 = x.val / 8) ⟨q, h⟩

theorem dec_d4a {q : Nat} (h : q < 32) : (q <<< 5) % 256 = q % 8 * 32 :=
  (by decide : ∀ x : Fin 32, (x.val <<< 5) % 256 = x.val % 8 * 32) ⟨q, h⟩

/-! ### Quintet values

Every quintet pushed by the encoder is below 32 (so alphabet indexing never
goes out of range), and for byte inputs its value is the corresponding
5-bit slice, expressed with `/` and `%`. -/

theorem or_lt_32 {x y : Nat} (hx : x < 32) (hy : y < 32) : x ||| y < 32 := by
  have e : (32 : Nat) = 2 ^ 5 := by norm_num
  rw [e] at hx hy ⊢
  exact Nat.or_lt_two_pow hx hy

theorem quintet0_lt (b0 : Nat) : quintet0 b0 < 32 := by
  have h : b0 &&& 0xF8 ≤ 0xF8 := Nat.and_le_right
  unfold quintet0
  rw [Nat.shiftRight_eq_div_pow]
  omega

theorem quintet1_lt (b0 b1 : Nat) : quintet1 b0 b1 < 32 := by
  unfold quintet1
  apply or_lt_32
  · have h : b0 &&& 0x07 ≤ 0x07 := Nat.and_le_right
    rw [Nat.shiftLeft_eq]
    omega
  · have h : b1 &&& 0xC0 ≤ 0xC0 := Nat.and_le_right
    rw [Nat.shiftRight_eq_div_pow]
    omega

theorem quintet2_lt (b1 : Nat) : quintet2 b1 < 32 := by
  have h : b1 &&& 0x3E ≤ 0x3E := Nat.and_le_right
  unfold quintet2
  rw [Nat.shiftRight_eq_div_pow]
  omega

theorem quintet3_lt (b1 b2 : Nat) : quintet3 b1 b2 < 32 := by
  unfold quintet3
  apply or_lt_32
  · have h : b1 &&& 0x01 ≤ 0x01 := Nat.and_le_right
    rw [Nat.shiftLeft_eq]
    omega
  · have h : b2 &&& 0xF0 ≤ 0xF0 := Nat.and_le_right
    rw [Nat.shiftRight_eq_div_pow]
    omega

theorem quintet4_lt (b2 : Nat) {b3 : Nat} (h3 : b3 < 256) :
    quintet4 b2 b3 < 32 := by
  unfold quintet4
  apply or_lt_32
  · have h : b2 &&& 0x0F ≤ 0x0F := Nat.and_le_right
    rw [Nat.shiftLeft_eq]
    omega
  · rw [Nat.shiftRight_eq_div_pow]
    omega

theorem quintet5_lt (b3 : Nat) : quintet5 b3 < 32 := by
  have h : b3 &&& 0x7C ≤ 0x7C := Nat.and_le_right
  unfold quintet5
  rw [Nat.shiftRight_eq_div_pow]
  omega

theorem quintet6_lt (b3 b4 : Nat) : quintet6 b3 b4 < 32 := by
  unfold quintet6
  apply or_lt_32
  · have h : b3 &&& 0x03 ≤ 0x03 := Nat.and_le_right
    rw [Nat.shiftLeft_eq]
    omega
  · have h : b4 &&& 0xE0 ≤ 0xE0 := Nat.and_le_right
    rw [Nat.shiftRight_eq_div_pow]
    omega

theorem quintet7_lt (b4 : Nat) : quintet7 b4 < 32 := by
  have h : b4 &&& 0x1F ≤ 0x1F := Nat.and_le_right
  unfold quintet7
  omega

theorem quintet0_eq {b0 : Nat} (h0 : b0 < 256) : quintet0 b0 = b0 / 8 := by
  rw [quintet0, enc_e0 h0]

theorem quintet1_eq {b0 b1 : Nat} (h0 : b0 < 256) (h1 : b1 < 256) :
    quintet1 b0 b1 = b0 % 8 * 4 + b1 / 64 := by
  rw [quintet1, enc_e1a h0, enc_e1b h1, and_or_disj4 (by omega) (by omega)]

theorem quintet2_eq {b1 : Nat} (h1 : b1 < 256) :
    quintet2 b1 = b1 % 64 / 2 := by
  rw [quintet2, enc_e2 h1]

theorem quintet3_eq {b1 b2 : Nat} (h1 : b1 < 256) (h2 : b2 < 256) :
    quintet3 b1 b2 = b1 % 2 * 16 + b2 / 16 := by
  rw [quintet3, enc_e3a h1, enc_e3b h2, and_or_disj16 (by omega) (by omega)]

theorem quintet4_eq {b2 b3 : Nat} (h2 : b2 < 256) (h3 : b3 < 256) :
    quintet4 b2 b3 = b2 % 16 * 2 + b3 / 128 := by
  rw [quintet4, enc_e4a h2, enc_e4b h3, and_or_disj2 (by omega) (by omega)]

theorem quintet5_eq {b3 : Nat} (h3 : b3 < 256) :
    quintet5 b3 = b3 % 128 / 4 := by
  rw [quintet5, enc_e5 h3]

theorem quintet6_eq {b3 b4 : Nat} (h3 : b3 < 256) (h4 : b4 < 256) :
    quintet6 b3 b4 = b3 % 4 * 8 + b4 / 32 := by
  rw [quintet6, enc_e6a h3, enc_e6b h4, and_or_disj8 (by omega) (by omega)]

theorem quintet7_eq {b4 : Nat} (h4 : b4 < 256) : quintet7 b4 = b4 % 32 := by
  rw [quintet7, enc_e7 h4]

/-! ### Alphabet / inverse-alphabet compatibility -/

/-- Decoding any symbol of the selected alphabet recovers its index:
the inverse table really is inverse to the alphabet, for every variant. -/
theorem value_for_symbol (t : Base32Type) {q : Nat} (h : q < 32) :
    value_for (dec_alphabet t) ((enc_alphabet t).getD q 0) = some q := by
  cases t
  · exact (by decide : ∀ x : Fin 32,
      value_for RFC4648_INV_ALPHABET (RFC4648_ALPHABET.getD x.val 0)
        = some x.val) ⟨q, h⟩
  · exact (by decide : ∀ x : Fin 32,
      value_for CROCKFORD_INV_ALPHABET (CROCKFORD_ALPHABET.getD x.val 0)
        = some x.val) ⟨q, h⟩
  · exact (by decide : ∀ x : Fin 32,
      value_for RFC4648_INV_ALPHABET (RFC4648_ALPHABET.getD x.val 0)
        = some x.val) ⟨q, h⟩

/-- No alphabet symbol is the padding character `'='` (61). -/
theorem symbol_ne_61 (t : Base32Type) {q : Nat} (h : q < 32) :
    (enc_alphabet t).getD q 0 ≠ 61 := by
  cases t
  · exact (by decide : ∀ x : Fin 32,
      RFC4648_ALPHABET.getD x.val 0 ≠ 61) ⟨q, h⟩
  · exact (by decide : ∀ x : Fin 32,
      CROCKFORD_ALPHABET.getD x.val 0 ≠ 61) ⟨q, h⟩
  · exact (by decide : ∀ x : Fin 32,
      RFC4648_ALPHABET.getD x.val 0 ≠ 61) ⟨q, h⟩

/-! ### Round trip of a single 5-octet group -/

theorem lookup_chunk_encode_group (t : Base32Type) (b0 b1 b2 : Nat)
    {b3 : Nat} (h3 : b3 < 256) (b4 : Nat) :
    lookup_chunk (dec_alphabet t)
        (encode_group (enc_alphabet t) b0 b1 b2 b3 b4)
      = some [quintet0 b0, quintet1 b0 b1, quintet2 b1, quintet3 b1 b2,
          quintet4 b2 b3, quintet5 b3, quintet6 b3 b4, quintet7 b4] := by
  have c0 := value_for_symbol t (quintet0_lt b0)
  have c1 := value_for_symbol t (quintet1_lt b0 b1)
  have c2 := value_for_symbol t (quintet2_lt b1)
  have c3 := value_for_symbol t (quintet3_lt b1 b2)
  have c4 := value_for_symbol t (quintet4_lt b2 h3)
  have c5 := value_for_symbol t (quintet5_lt b3)
  have c6 := value_for_symbol t (quintet6_lt b3 b4)
  have c7 := value_for_symbol t (quintet7_lt b4)
  simp only [encode_group, lookup_chunk, c0, c1, c2, c3, c4, c5, c6, c7]

/-- The byte reconstruction applied to the quintet vector of five octets
gives back exactly those octets. -/
theorem recon5_quintets {b0 b1 b2 b3 b4 : Nat} (h0 : b0 < 256)
    (h1 : b1 < 256) (h2 : b2 < 256) (h3 : b3 < 256) (h4 : b4 < 256) :
    recon5 [quintet0 b0, quintet1 b0 b1, quintet2 b1, quintet3 b1 b2,
        quintet4 b2 b3, quintet5 b3, quintet6 b3 b4, quintet7 b4]
      = [b0, b1, b2, b3, b4] := by
  simp only [recon5, List.getD_cons_zero, List.getD_cons_succ,
    List.cons.injEq, and_true]
  refine ⟨?_, ?_, ?_, ?_, ?_⟩
  · rw [quintet0_eq h0, quintet1_eq h0 h1, dec_d0a (by omega),
      dec_d0b (by omega), and_or_disj8 (by omega) (by omega)]
    omega
  · rw [quintet1_eq h0 h1, quintet2_eq h1, quintet3_eq h1 h2,
      dec_d1a (by omega), dec_d1b (by omega), dec_d1c (by omega),
      and_or_disj64 (by omega) (by omega)]
    have e2 : (b0 % 8 * 4 + b1 / 64) % 4 * 64 + b1 % 64 / 2 * 2
        = ((b0 % 8 * 4 + b1 / 64) % 4 * 32 + b1 % 64 / 2) * 2 := by ring
    rw [e2, and_or_disj2 (by omega) (by omega)]
    omega
  · rw [quintet3_eq h1 h2, quintet4_eq h2 h3, dec_d2a (by omega),
      dec_d2b (by omega), and_or_disj16 (by omega) (by omega)]
    omega
  · rw [quintet4_eq h2 h3, quintet5_eq h3, quintet6_eq h3 h4,
      dec_d3a (by omega), dec_d3b (by omega), dec_d3c (by omega),
      and_or_disj128 (by omega) (by omega)]
    have e : (b2 % 16 * 2 + b3 / 128) % 2 * 128 + b3 % 128 / 4 * 4
        = ((b2 % 16 * 2 + b3 / 128) % 2 * 32 + b3 % 128 / 4) * 4 := by ring
    rw [e, and_or_disj4 (by omega) (by omega)]
    omega
  · rw [quintet6_eq h3 h4, quintet7_eq h4, dec_d4a (by omega),
      and_or_disj32 (by omega) (by omega)]
    omega

/-- Any chunk whose looked-up quintets, once zero-filled to 8 entries,
form the quintet vector of octets `b0..b4`, decodes to `[b0..b4]`. -/
theorem decode_group_spec (t : Base32Type) {chunk qs : List Nat}
    {b0 b1 b2 b3 b4 : Nat} (h0 : b0 < 256) (h1 : b1 < 256) (h2 : b2 < 256)
    (h3 : b3 < 256) (h4 : b4 < 256)
    (hl : lookup_chunk (dec_alphabet t) chunk = some qs)
    (hq : qs ++ List.replicate (8 - qs.length) 0
      = [quintet0 b0, quintet1 b0 b1, quintet2 b1, quintet3 b1 b2,
          quintet4 b2 b3, quintet5 b3, quintet6 b3 b4, quintet7 b4]) :
    decode_group (dec_alphabet t) chunk = some [b0, b1, b2, b3, b4] := by
  simp only [decode_group, hl, hq]
  exact congrArg some (recon5_quintets h0 h1 h2 h3 h4)

/-- Decoding one encoded full group recovers the five input octets. -/
theorem decode_group_encode_group (t : Base32Type) {b0 b1 b2 b3 b4 : Nat}
    (h0 : b0 < 256) (h1 : b1 < 256) (h2 : b2 < 256) (h3 : b3 < 256)
    (h4 : b4 < 256) :
    decode_group (dec_alphabet t)
        (encode_group (enc_alphabet t) b0 b1 b2 b3 b4)
      = some [b0, b1, b2, b3, b4] := by
  refine decode_group_spec t h0 h1 h2 h3 h4
    (lookup_chunk_encode_group t b0 b1 b2 h3 b4) ?_
  simp

theorem quintet2_zero : quintet2 0 = 0 := by decide

theorem quintet3_zero : quintet3 0 0 = 0 := by decide

theorem quintet4_zero : quintet4 0 0 = 0 := by decide

theorem quintet5_zero : quintet5 0 = 0 := by decide

theorem quintet6_zero : quintet6 0 0 = 0 := by decide

theorem quintet7_zero : quintet7 0 = 0 := by decide

/-! ### Chunk-level structure of encode -/

theorem encode_group_length (alphabet : List Nat) (b0 b1 b2 b3 b4 : Nat) :
    (encode_group alphabet b0 b1 b2 b3 b4).length = 8 := by
  simp [encode_group]

theorem encode_chunks_length (alphabet : List Nat) :
    ∀ data : List Nat,
      (encode_chunks alphabet data).length = (data.length + 4) / 5 * 8
  | [] => by simp [encode_chunks]
  | [b0] => by simp [encode_chunks, encode_group]
  | [b0, b1] => by simp [encode_chunks, encode_group]
  | [b0, b1, b2] => by simp [encode_chunks, encode_group]
  | [b0, b1, b2, b3] => by simp [encode_chunks, encode_group]
  | b0 :: b1 :: b2 :: b3 :: b4 :: rest => by
    have ih := encode_chunks_length alphabet rest
    simp only [encode_chunks, List.length_append, encode_group_length, ih,
      List.length_cons]
    omega

theorem num_extra_add5 (n : Nat) : num_extra (n + 5) = num_extra n := by
  unfold num_extra
  have h : (n + 5) % 5 = n % 5 := by omega
  rw [h]

theorem num_extra_le8 (n : Nat) : num_extra n ≤ 8 := by
  unfold num_extra
  omega

/-- Splitting the first full 5-octet group off `encode`: the tail
adjustment (truncation or padding) only touches the last group. -/
theorem encode_cons5 (t : Base32Type) (b0 b1 b2 b3 b4 : Nat)
    (rest : List Nat) :
    encode t (b0 :: b1 :: b2 :: b3 :: b4 :: rest)
      = encode_group (enc_alphabet t) b0 b1 b2 b3 b4 ++ encode t rest := by
  have hch : encode_chunks (enc_alphabet t) (b0 :: b1 :: b2 :: b3 :: b4 :: rest)
      = encode_group (enc_alphabet t) b0 b1 b2 b3 b4
        ++ encode_chunks (enc_alphabet t) rest := rfl
  have hmod : (b0 :: b1 :: b2 :: b3 :: b4 :: rest).length % 5
      = rest.length % 5 := by
    simp only [List.length_cons]
    omega
  have hlen : (b0 :: b1 :: b2 :: b3 :: b4 :: rest).length
      = rest.length + 5 := by
    simp only [List.length_cons]
  by_cases h : rest.length % 5 = 0
  · simp only [encode, hch, hmod, h, ne_eq, not_true_eq_false, if_false]
  · have hE : (encode_chunks (enc_alphabet t) rest).length
        = (rest.length + 4) / 5 * 8 := encode_chunks_length _ rest
    have hrest1 : 1 ≤ rest.length := by omega
    have hE8 : 8 ≤ (encode_chunks (enc_alphabet t) rest).length := by
      rw [hE]; omega
    have hx : num_extra (b0 :: b1 :: b2 :: b3 :: b4 :: rest).length
        = num_extra rest.length := by rw [hlen, num_extra_add5]
    have hxle := num_extra_le8 rest.length
    have harith : (encode_group (enc_alphabet t) b0 b1 b2 b3 b4
          ++ encode_chunks (enc_alphabet t) rest).length
          - num_extra rest.length
        = (encode_group (enc_alphabet t) b0 b1 b2 b3 b4).length
          + ((encode_chunks (enc_alphabet t) rest).length
            - num_extra rest.length) := by
      simp only [List.length_append, encode_group_length]
      omega
    cases t
    · simp only [encode, hch, hmod, h, ne_eq, not_false_eq_true, if_true, hx,
        harith, List.take_append, List.append_assoc]
    · simp only [encode, hch, hmod, h, ne_eq, not_false_eq_true, if_true, hx,
        harith, List.take_append]
    · simp only [encode, hch, hmod, h, ne_eq, not_false_eq_true, if_true, hx,
        harith, List.take_append]

/-! ### Decoding an encoded final short group -/

theorem decode_chunks_encode_r1 (t : Base32Type) {b0 : Nat} (h0 : b0 < 256) :
    decode_chunks (dec_alphabet t) (encode t [b0]) = some [b0, 0, 0, 0, 0] := by
  have hz : (0 : Nat) < 256 := by norm_num
  have c0 := value_for_symbol t (quintet0_lt b0)
  have c1 := value_for_symbol t (quintet1_lt b0 0)
  cases t
  · have h61 : value_for (dec_alphabet Base32Type.RFC4648Base32) 61
        = some 0 := by decide
    have henc : encode Base32Type.RFC4648Base32 [b0]
        = [(enc_alphabet Base32Type.RFC4648Base32).getD (quintet0 b0) 0,
           (enc_alphabet Base32Type.RFC4648Base32).getD (quintet1 b0 0) 0,
           61, 61, 61, 61, 61, 61] := by with_unfolding_all rfl
    have hl : lookup_chunk (dec_alphabet Base32Type.RFC4648Base32)
        [(enc_alphabet Base32Type.RFC4648Base32).getD (quintet0 b0) 0,
         (enc_alphabet Base32Type.RFC4648Base32).getD (quintet1 b0 0) 0,
         61, 61, 61, 61, 61, 61]
        = some [quintet0 b0, quintet1 b0 0, 0, 0, 0, 0, 0, 0] := by
      simp only [lookup_chunk, c0, c1, h61]
    have hq : [quintet0 b0, quintet1 b0 0, 0, 0, 0, 0, 0, 0]
        ++ List.replicate
          (8 - [quintet0 b0, quintet1 b0 0, 0, 0, 0, 0, 0, 0].length) 0
        = [quintet0 b0, quintet1 b0 0, quintet2 0, quintet3 0 0,
            quintet4 0 0, quintet5 0, quintet6 0 0, quintet7 0] := by
      rw [quintet2_zero, quintet3_zero, quintet4_zero, quintet5_zero,
        quintet6_zero, quintet7_zero]
      rfl
    have hg := decode_group_spec Base32Type.RFC4648Base32 h0 hz hz hz hz hl hq
    rw [henc]
    simp only [decode_chunks, hg, List.append_nil]
  · have henc : encode Base32Type.CrockfordBase32 [b0]
        = [(enc_alphabet Base32Type.CrockfordBase32).getD (quintet0 b0) 0,
           (enc_alphabet Base32Type.CrockfordBase32).getD (quintet1 b0 0) 0]
        := by with_unfolding_all rfl
    have hl : lookup_chunk (dec_alphabet Base32Type.CrockfordBase32)
        [(enc_alphabet Base32Type.CrockfordBase32).getD (quintet0 b0) 0,
         (enc_alphabet Base32Type.CrockfordBase32).getD (quintet1 b0 0) 0]
        = some [quintet0 b0, quintet1 b0 0] := by
      simp only [lookup_chunk, c0, c1]
    have hq : [quintet0 b0, quintet1 b0 0]
        ++ List.replicate (8 - [quintet0 b0, quintet1 b0 0].length) 0
        = [quintet0 b0, quintet1 b0 0, quintet2 0, quintet3 0 0,
            quintet4 0 0, quintet5 0, quintet6 0 0, quintet7 0] := by
      rw [quintet2_zero, quintet3_zero, quintet4_zero, quintet5_zero,
        quintet6_zero, quintet7_zero]
      rfl
    have hg := decode_group_spec Base32Type.CrockfordBase32 h0 hz hz hz hz hl hq
    rw [henc]
    simp only [decode_chunks, hg]
  · have henc : encode Base32Type.UnpaddedRFC4648Base32 [b0]
        = [(enc_alphabet Base32Type.UnpaddedRFC4648Base32).getD
            (quintet0 b0) 0,
           (enc_alphabet Base32Type.UnpaddedRFC4648Base32).getD
            (quintet1 b0 0) 0] := by with_unfolding_all rfl
    have hl : lookup_chunk (dec_alphabet Base32Type.UnpaddedRFC4648Base32)
        [(enc_alphabet Base32Type.UnpaddedRFC4648Base32).getD (quintet0 b0) 0,
         (enc_alphabet Base32Type.UnpaddedRFC4648Base32).getD (quintet1 b0 0) 0]
        = some [quintet0 b0, quintet1 b0 0] := by
      simp only [lookup_chunk, c0, c1]
    have hq : [quintet0 b0, quintet1 b0 0]
        ++ List.replicate (8 - [quintet0 b0, quintet1 b0 0].length) 0
        = [quintet0 b0, quintet1 b0 0, quintet2 0, quintet3 0 0,
            quintet4 0 0, quintet5 0, quintet6 0 0, quintet7 0] := by
      rw [quintet2_zero, quintet3_zero, quintet4_zero, quintet5_zero,
        quintet6_zero, quintet7_zero]
      rfl
    have hg := decode_group_spec Base32Type.UnpaddedRFC4648Base32
      h0 hz hz hz hz hl hq
    rw [henc]
    simp only [decode_chunks, hg]

theorem decode_chunks_encode_r2 (t : Base32Type) {b0 b1 : Nat} (h0 : b0 < 256) (h1 : b1 < 256) :
    decode_chunks (dec_alphabet t) (encode t [b0, b1])
      = some [b0, b1, 0, 0, 0] := by
  have hz : (0 : Nat) < 256 := by norm_num
  have c0 := value_for_symbol t (quintet0_lt b0)
  have c1 := value_for_symbol t (quintet1_lt b0 b1)
  have c2 := value_for_symbol t (quintet2_lt b1)
  have c3 := value_for_symbol t (quintet3_lt b1 0)
  cases t
  · 
    have h61 : value_for (dec_alphabet Base32Type.RFC4648Base32) 61
        = some 0 := by decide
    have henc : encode Base32Type.RFC4648Base32 [b0, b1]
        = [(enc_alphabet Base32Type.RFC4648Base32).getD (quintet0 b0) 0,
           (enc_alphabet Base32Type.RFC4648Base32).getD (quintet1 b0 b1) 0,
           (enc_alphabet Base32Type.RFC4648Base32).getD (quintet2 b1) 0,
           (enc_alphabet Base32Type.RFC4648Base32).getD (quintet3 b1 0) 0,
           61,
           61,
           61,
           61] := by with_unfolding_all rfl
    have hl : lookup_chunk (dec_alphabet Base32Type.RFC4648Base32)
        [(enc_alphabet Base32Type.RFC4648Base32).getD (quintet0 b0) 0,
           (enc_alphabet Base32Type.RFC4648Base32).getD (quintet1 b0 b1) 0,
           (enc_alphabet Base32Type.RFC4648Base32).getD (quintet2 b1) 0,
           (enc_alphabet Base32Type.RFC4648Base32).getD (quintet3 b1 0) 0,
           61,
           61,
           61,
           61]
        = some [quintet0 b0, quintet1 b0 b1, quintet2 b1, quintet3 b1 0, 0, 0, 0, 0] := by
      simp only [lookup_chunk, c0, c1, c2, c3, h61]
    have hq : [quintet0 b0, quintet1 b0 b1, quintet2 b1, quintet3 b1 0, 0, 0, 0, 0]
        ++ List.replicate (8 - [quintet0 b0, quintet1 b0 b1, quintet2 b1, quintet3 b1 0, 0, 0, 0, 0].length) 0
        = [quintet0 b0, quintet1 b0 b1, quintet2 b1, quintet3 b1 0, quintet4 0 0, quintet5 0, quintet6 0 0, quintet7 0] := by
      rw [quintet4_zero, quintet5_zero, quintet6_zero, quintet7_zero]
      rfl
    have hg := decode_group_spec Base32Type.RFC4648Base32 h0 h1 hz hz hz hl hq
    rw [henc]
    simp only [decode_chunks, hg, List.append_nil]
  · 
    have henc : encode Base32Type.CrockfordBase32 [b0, b1]
        = [(enc_alphabet Base32Type.CrockfordBase32).getD (quintet0 b0) 0,
           (enc_alphabet Base32Type.CrockfordBase32).getD (quintet1 b0 b1) 0,
           (enc_alphabet Base32Type.CrockfordBase32).getD (quintet2 b1) 0,
           (enc_alphabet Base32Type.CrockfordBase32).getD (quintet3 b1 0) 0] := by with_unfolding_all rfl
    have hl : lookup_chunk (dec_alphabet Base32Type.CrockfordBase32)
        [(enc_alphabet Base32Type.CrockfordBase32).getD (quintet0 b0) 0,
           (enc_alphabet Base32Type.CrockfordBase32).getD (quintet1 b0 b1) 0,
           (enc_alphabet Base32Type.CrockfordBase32).getD (quintet2 b1) 0,
           (enc_alphabet Base32Type.CrockfordBase32).getD (quintet3 b1 0) 0]
        = some [quintet0 b0, quintet1 b0 b1, quintet2 b1, quintet3 b1 0] := by
      simp only [lookup_chunk, c0, c1, c2, c3]
    have hq : [quintet0 b0, quintet1 b0 b1, quintet2 b1, quintet3 b1 0]
        ++ List.replicate (8 - [quintet0 b0, quintet1 b0 b1, quintet2 b1, quintet3 b1 0].length) 0
        = [quintet0 b0, quintet1 b0 b1, quintet2 b1, quintet3 b1 0, quintet4 0 0, quintet5 0, quintet6 0 0, quintet7 0] := by
      rw [quintet4_zero, quintet5_zero, quintet6_zero, quintet7_zero]
      rfl
    have hg := decode_group_spec Base32Type.CrockfordBase32 h0 h1 hz hz hz hl hq
    rw [henc]
    simp only [decode_chunks, hg]
  · 
    have henc : encode Base32Type.UnpaddedRFC4648Base32 [b0, b1]
        = [(enc_alphabet Base32Type.UnpaddedRFC4648Base32).getD (quintet0 b0) 0,
           (enc_alphabet Base32Type.UnpaddedRFC4648Base32).getD (quintet1 b0 b1) 0,
           (enc_alphabet Base32Type.UnpaddedRFC4648Base32).getD (quintet2 b1) 0,
           (enc_alphabet Base32Type.UnpaddedRFC4648Base32).getD (quintet3 b1 0) 0] := by with_unfolding_all rfl
    have hl : lookup_chunk (dec_alphabet Base32Type.UnpaddedRFC4648Base32)
        [(enc_alphabet Base32Type.UnpaddedRFC4648Base32).getD (quintet0 b0) 0,
           (enc_alphabet Base32Type.UnpaddedRFC4648Base32).getD (quintet1 b0 b1) 0,
           (enc_alphabet Base32Type.UnpaddedRFC4648Base32).getD (quintet2 b1) 0,
           (enc_alphabet Base32Type.UnpaddedRFC4648Base32).getD (quintet3 b1 0) 0]
        = some [quintet0 b0, quintet1 b0 b1, quintet2 b1, quintet3 b1 0] := by
      simp only [lookup_chunk, c0, c1, c2, c3]
    have hq : [quintet0 b0, quintet1 b0 b1, quintet2 b1, quintet3 b1 0]
        ++ List.replicate (8 - [quintet0 b0, quintet1 b0 b1, quintet2 b1, quintet3 b1 0].length) 0
        = [quintet0 b0, quintet1 b0 b1, quintet2 b1, quintet3 b1 0, quintet4 0 0, quintet5 0, quintet6 0 0, quintet7 0] := by
      rw [quintet4_zero, quintet5_zero, quintet6_zero, quintet7_zero]
      rfl
    have hg := decode_group_spec Base32Type.UnpaddedRFC4648Base32 h0 h1 hz hz hz hl hq
    rw [henc]
    simp only [decode_chunks, hg]

theorem decode_chunks_encode_r3 (t : Base32Type) {b0 b1 b2 : Nat} (h0 : b0 < 256) (h1 : b1 < 256) (h2 : b2 < 256) :
    decode_chunks (dec_alphabet t) (encode t [b0, b1, b2])
      = some [b0, b1, b2, 0, 0] := by
  have hz : (0 : Nat) < 256 := by norm_num
  have c0 := value_for_symbol t (quintet0_lt b0)
  have c1 := value_for_symbol t (quintet1_lt b0 b1)
  have c2 := value_for_symbol t (quintet2_lt b1)
  have c3 := value_for_symbol t (quintet3_lt b1 b2)
  have c4 := value_for_symbol t (quintet4_lt b2 hz)
  cases t
  · 
    have h61 : value_for (dec_alphabet Base32Type.RFC4648Base32) 61
        = some 0 := by decide
    have henc : encode Base32Type.RFC4648Base32 [b0, b1, b2]
        = [(enc_alphabet Base32Type.RFC4648Base32).getD (quintet0 b0) 0,
           (enc_alphabet Base32Type.RFC4648Base32).getD (quintet1 b0 b1) 0,
           (enc_alphabet Base32Type.RFC4648Base32).getD (quintet2 b1) 0,
           (enc_alphabet Base32Type.RFC4648Base32).getD (quintet3 b1 b2) 0,
           (enc_alphabet Base32Type.RFC4648Base32).getD (quintet4 b2 0) 0,
           61,
           61,
           61] := by with_unfolding_all rfl
    have hl : lookup_chunk (dec_alphabet Base32Type.RFC4648Base32)
        [(enc_alphabet Base32Type.RFC4648Base32).getD (quintet0 b0) 0,
           (enc_alphabet Base32Type.RFC4648Base32).getD (quintet1 b0 b1) 0,
           (enc_alphabet Base32Type.RFC4648Base32).getD (quintet2 b1) 0,
           (enc_alphabet Base32Type.RFC4648Base32).getD (quintet3 b1 b2) 0,
           (enc_alphabet Base32Type.RFC4648Base32).getD (quintet4 b2 0) 0,
           61,
           61,
           61]
        = some [quintet0 b0, quintet1 b0 b1, quintet2 b1, quintet3 b1 b2, quintet4 b2 0, 0, 0, 0] := by
      simp only [lookup_chunk, c0, c1, c2, c3, c4, h61]
    have hq : [quintet0 b0, quintet1 b0 b1, quintet2 b1, quintet3 b1 b2, quintet4 b2 0, 0, 0, 0]
        ++ List.replicate (8 - [quintet0 b0, quintet1 b0 b1, quintet2 b1, quintet3 b1 b2, quintet4 b2 0, 0, 0, 0].length) 0
        = [quintet0 b0, quintet1 b0 b1, quintet2 b1, quintet3 b1 b2, quintet4 b2 0, quintet5 0, quintet6 0 0, quintet7 0] := by
      rw [quintet5_zero, quintet6_zero, quintet7_zero]
      rfl
    have hg := decode_group_spec Base32Type.RFC4648Base32 h0 h1 h2 hz hz hl hq
    rw [henc]
    simp only [decode_chunks, hg, List.append_nil]
  · 
    have henc : encode Base32Type.CrockfordBase32 [b0, b1, b2]
        = [(enc_alphabet Base32Type.CrockfordBase32).getD (quintet0 b0) 0,
           (enc_alphabet Base32Type.CrockfordBase32).getD (quintet1 b0 b1) 0,
           (enc_alphabet Base32Type.CrockfordBase32).getD (quintet2 b1) 0,
           (enc_alphabet Base32Type.CrockfordBase32).getD (quintet3 b1 b2) 0,
           (enc_alphabet Base32Type.CrockfordBase32).getD (quintet4 b2 0) 0] := by with_unfolding_all rfl
    have hl : lookup_chunk (dec_alphabet Base32Type.CrockfordBase32)
        [(enc_alphabet Base32Type.CrockfordBase32).getD (quintet0 b0) 0,
           (enc_alphabet Base32Type.CrockfordBase32).getD (quintet1 b0 b1) 0,
           (enc_alphabet Base32Type.CrockfordBase32).getD (quintet2 b1) 0,
           (enc_alphabet Base32Type.CrockfordBase32).getD (quintet3 b1 b2) 0,
           (enc_alphabet Base32Type.CrockfordBase32).getD (quintet4 b2 0) 0]
        = some [quintet0 b0, quintet1 b0 b1, quintet2 b1, quintet3 b1 b2, quintet4 b2 0] := by
      simp only [lookup_chunk, c0, c1, c2, c3, c4]
    have hq : [quintet0 b0, quintet1 b0 b1, quintet2 b1, quintet3 b1 b2, quintet4 b2 0]
        ++ List.replicate (8 - [quintet0 b0, quintet1 b0 b1, quintet2 b1, quintet3 b1 b2, quintet4 b2 0].length) 0
        = [quintet0 b0, quintet1 b0 b1, quintet2 b1, quintet3 b1 b2, quintet4 b2 0, quintet5 0, quintet6 0 0, quintet7 0] := by
      rw [quintet5_zero, quintet6_zero, quintet7_zero]
      rfl
    have hg := decode_group_spec Base32Type.CrockfordBase32 h0 h1 h2 hz hz hl hq
    rw [henc]
    simp only [decode_chunks, hg]
  · 
    have henc : encode Base32Type.UnpaddedRFC4648Base32 [b0, b1, b2]
        = [(enc_alphabet Base32Type.UnpaddedRFC4648Base32).getD (quintet0 b0) 0,
           (enc_alphabet Base32Type.UnpaddedRFC4648Base32).getD (quintet1 b0 b1) 0,
           (enc_alphabet Base32Type.UnpaddedRFC4648Base32).getD (quintet2 b1) 0,
           (enc_alphabet Base32Type.UnpaddedRFC4648Base32).getD (quintet3 b1 b2) 0,
           (enc_alphabet Base32Type.UnpaddedRFC4648Base32).getD (quintet4 b2 0) 0] := by with_unfolding_all rfl
    have hl : lookup_chunk (dec_alphabet Base32Type.UnpaddedRFC4648Base32)
        [(enc_alphabet Base32Type.UnpaddedRFC4648Base32).getD (quintet0 b0) 0,
           (enc_alphabet Base32Type.UnpaddedRFC4648Base32).getD (quintet1 b0 b1) 0,
           (enc_alphabet Base32Type.UnpaddedRFC4648Base32).getD (quintet2 b1) 0,
           (enc_alphabet Base32Type.UnpaddedRFC4648Base32).getD (quintet3 b1 b2) 0,
           (enc_alphabet Base32Type.UnpaddedRFC4648Base32).getD (quintet4 b2 0) 0]
        = some [quintet0 b0, quintet1 b0 b1, quintet2 b1, quintet3 b1 b2, quintet4 b2 0] := by
      simp only [lookup_chunk, c0, c1, c2, c3, c4]
    have hq : [quintet0 b0, quintet1 b0 b1, quintet2 b1, quintet3 b1 b2, quintet4 b2 0]
        ++ List.replicate (8 - [quintet0 b0, quintet1 b0 b1, quintet2 b1, quintet3 b1 b2, quintet4 b2 0].length) 0
        = [quintet0 b0, quintet1 b0 b1, quintet2 b1, quintet3 b1 b2, quintet4 b2 0, quintet5 0, quintet6 0 0, quintet7 0] := by
      rw [quintet5_zero, quintet6_zero, quintet7_zero]
      rfl
    have hg := decode_group_spec Base32Type.UnpaddedRFC4648Base32 h0 h1 h2 hz hz hl hq
    rw [henc]
    simp only [decode_chunks, hg]

theorem decode_chunks_encode_r4 (t : Base32Type) {b0 b1 b2 b3 : Nat} (h0 : b0 < 256) (h1 : b1 < 256) (h2 : b2 < 256) (h3 : b3 < 256) :
    decode_chunks (dec_alphabet t) (encode t [b0, b1, b2, b3])
      = some [b0, b1, b2, b3, 0] := by
  have hz : (0 : Nat) < 256 := by norm_num
  have c0 := value_for_symbol t (quintet0_lt b0)
  have c1 := value_for_symbol t (quintet1_lt b0 b1)
  have c2 := value_for_symbol t (quintet2_lt b1)
  have c3 := value_for_symbol t (quintet3_lt b1 b2)
  have c4 := value_for_symbol t (quintet4_lt b2 h3)
  have c5 := value_for_symbol t (quintet5_lt b3)
  have c6 := value_for_symbol t (quintet6_lt b3 0)
  cases t
  · 
    have h61 : value_for (dec_alphabet Base32Type.RFC4648Base32) 61
        = some 0 := by decide
    have henc : encode Base32Type.RFC4648Base32 [b0, b1, b2, b3]
        = [(enc_alphabet Base32Type.RFC4648Base32).getD (quintet0 b0) 0,
           (enc_alphabet Base32Type.RFC4648Base32).getD (quintet1 b0 b1) 0,
           (enc_alphabet Base32Type.RFC4648Base32).getD (quintet2 b1) 0,
           (enc_alphabet Base32Type.RFC4648Base32).getD (quintet3 b1 b2) 0,
           (enc_alphabet Base32Type.RFC4648Base32).getD (quintet4 b2 b3) 0,
           (enc_alphabet Base32Type.RFC4648Base32).getD (quintet5 b3) 0,
           (enc_alphabet Base32Type.RFC4648Base32).getD (quintet6 b3 0) 0,
           61] := by with_unfolding_all rfl
    have hl : lookup_chunk (dec_alphabet Base32Type.RFC4648Base32)
        [(enc_alphabet Base32Type.RFC4648Base32).getD (quintet0 b0) 0,
           (enc_alphabet Base32Type.RFC4648Base32).getD (quintet1 b0 b1) 0,
           (enc_alphabet Base32Type.RFC4648Base32).getD (quintet2 b1) 0,
           (enc_alphabet Base32Type.RFC4648Base32).getD (quintet3 b1 b2) 0,
           (enc_alphabet Base32Type.RFC4648Base32).getD (quintet4 b2 b3) 0,
           (enc_alphabet Base32Type.RFC4648Base32).getD (quintet5 b3) 0,
           (enc_alphabet Base32Type.RFC4648Base32).getD (quintet6 b3 0) 0,
           61]
        = some [quintet0 b0, quintet1 b0 b1, quintet2 b1, quintet3 b1 b2, quintet4 b2 b3, quintet5 b3, quintet6 b3 0, 0] := by
      simp only [lookup_chunk, c0, c1, c2, c3, c4, c5, c6, h61]
    have hq : [quintet0 b0, quintet1 b0 b1, quintet2 b1, quintet3 b1 b2, quintet4 b2 b3, quintet5 b3, quintet6 b3 0, 0]
        ++ List.replicate (8 - [quintet0 b0, quintet1 b0 b1, quintet2 b1, quintet3 b1 b2, quintet4 b2 b3, quintet5 b3, quintet6 b3 0, 0].length) 0
        = [quintet0 b0, quintet1 b0 b1, quintet2 b1, quintet3 b1 b2, quintet4 b2 b3, quintet5 b3, quintet6 b3 0, quintet7 0] := by
      rw [quintet7_zero]
      rfl
    have hg := decode_group_spec Base32Type.RFC4648Base32 h0 h1 h2 h3 hz hl hq
    rw [henc]
    simp only [decode_chunks, hg, List.append_nil]
  · 
    have henc : encode Base32Type.CrockfordBase32 [b0, b1, b2, b3]
        = [(enc_alphabet Base32Type.CrockfordBase32).getD (quintet0 b0) 0,
           (enc_alphabet Base32Type.CrockfordBase32).getD (quintet1 b0 b1) 0,
           (enc_alphabet Base32Type.CrockfordBase32).getD (quintet2 b1) 0,
           (enc_alphabet Base32Type.CrockfordBase32).getD (quintet3 b1 b2) 0,
           (enc_alphabet Base32Type.CrockfordBase32).getD (quintet4 b2 b3) 0,
           (enc_alphabet Base32Type.CrockfordBase32).getD (quintet5 b3) 0,
           (enc_alphabet Base32Type.CrockfordBase32).getD (quintet6 b3 0) 0] := by with_unfolding_all rfl
    have hl : lookup_chunk (dec_alphabet Base32Type.CrockfordBase32)
        [(enc_alphabet Base32Type.CrockfordBase32).getD (quintet0 b0) 0,
           (enc_alphabet Base32Type.CrockfordBase32).getD (quintet1 b0 b1) 0,
           (enc_alphabet Base32Type.CrockfordBase32).getD (quintet2 b1) 0,
           (enc_alphabet Base32Type.CrockfordBase32).getD (quintet3 b1 b2) 0,
           (enc_alphabet Base32Type.CrockfordBase32).getD (quintet4 b2 b3) 0,
           (enc_alphabet Base32Type.CrockfordBase32).getD (quintet5 b3) 0,
           (enc_alphabet Base32Type.CrockfordBase32).getD (quintet6 b3 0) 0]
        = some [quintet0 b0, quintet1 b0 b1, quintet2 b1, quintet3 b1 b2, quintet4 b2 b3, quintet5 b3, quintet6 b3 0] := by
      simp only [lookup_chunk, c0, c1, c2, c3, c4, c5, c6]
    have hq : [quintet0 b0, quintet1 b0 b1, quintet2 b1, quintet3 b1 b2, quintet4 b2 b3, quintet5 b3, quintet6 b3 0]
        ++ List.replicate (8 - [quintet0 b0, quintet1 b0 b1, quintet2 b1, quintet3 b1 b2, quintet4 b2 b3, quintet5 b3, quintet6 b3 0].length) 0
        = [quintet0 b0, quintet1 b0 b1, quintet2 b1, quintet3 b1 b2, quintet4 b2 b3, quintet5 b3, quintet6 b3 0, quintet7 0] := by
      rw [quintet7_zero]
      rfl
    have hg := decode_group_spec Base32Type.CrockfordBase32 h0 h1 h2 h3 hz hl hq
    rw [henc]
    simp only [decode_chunks, hg]
  · 
    have henc : encode Base32Type.UnpaddedRFC4648Base32 [b0, b1, b2, b3]
        = [(enc_alphabet Base32Type.UnpaddedRFC4648Base32).getD (quintet0 b0) 0,
           (enc_alphabet Base32Type.UnpaddedRFC4648Base32).getD (quintet1 b0 b1) 0,
           (enc_alphabet Base32Type.UnpaddedRFC4648Base32).getD (quintet2 b1) 0,
           (enc_alphabet Base32Type.UnpaddedRFC4648Base32).getD (quintet3 b1 b2) 0,
           (enc_alphabet Base32Type.UnpaddedRFC4648Base32).getD (quintet4 b2 b3) 0,
           (enc_alphabet Base32Type.UnpaddedRFC4648Base32).getD (quintet5 b3) 0,
           (enc_alphabet Base32Type.UnpaddedRFC4648Base32).getD (quintet6 b3 0) 0] := by with_unfolding_all rfl
    have hl : lookup_chunk (dec_alphabet Base32Type.UnpaddedRFC4648Base32)
        [(enc_alphabet Base32Type.UnpaddedRFC4648Base32).getD (quintet0 b0) 0,
           (enc_alphabet Base32Type.UnpaddedRFC4648Base32).getD (quintet1 b0 b1) 0,
           (enc_alphabet Base32Type.UnpaddedRFC4648Base32).getD (quintet2 b1) 0,
           (enc_alphabet Base32Type.UnpaddedRFC4648Base32).getD (quintet3 b1 b2) 0,
           (enc_alphabet Base32Type.UnpaddedRFC4648Base32).getD (quintet4 b2 b3) 0,
           (enc_alphabet Base32Type.UnpaddedRFC4648Base32).getD (quintet5 b3) 0,
           (enc_alphabet Base32Type.UnpaddedRFC4648Base32).getD (quintet6 b3 0) 0]
        = some [quintet0 b0, quintet1 b0 b1, quintet2 b1, quintet3 b1 b2, quintet4 b2 b3, quintet5 b3, quintet6 b3 0] := by
      simp only [lookup_chunk, c0, c1, c2, c3, c4, c5, c6]
    have hq : [quintet0 b0, quintet1 b0 b1, quintet2 b1, quintet3 b1 b2, quintet4 b2 b3, quintet5 b3, quintet6 b3 0]
        ++ List.replicate (8 - [quintet0 b0, quintet1 b0 b1, quintet2 b1, quintet3 b1 b2, quintet4 b2 b3, quintet5 b3, quintet6 b3 0].length) 0
        = [quintet0 b0, quintet1 b0 b1, quintet2 b1, quintet3 b1 b2, quintet4 b2 b3, quintet5 b3, quintet6 b3 0, quintet7 0] := by
      rw [quintet7_zero]
      rfl
    have hg := decode_group_spec Base32Type.UnpaddedRFC4648Base32 h0 h1 h2 h3 hz hl hq
    rw [henc]
    simp only [decode_chunks, hg]

/-! ### Full round trip through the chunk loops -/

theorem pad_to_5_cons5 (b0 b1 b2 b3 b4 : Nat) (rest : List Nat) :
    pad_to_5 (b0 :: b1 :: b2 :: b3 :: b4 :: rest)
      = b0 :: b1 :: b2 :: b3 :: b4 :: pad_to_5 rest := by
  unfold pad_to_5
  have h : (b0 :: b1 :: b2 :: b3 :: b4 :: rest).length % 5
      = rest.length % 5 := by
    simp only [List.length_cons]
    omega
  rw [h]
  simp

/-- Decoding the chunk stream of any encoding reconstructs the input,
zero-filled to a multiple of five octets. -/
theorem decode_chunks_encode (t : Base32Type) :
    ∀ data : List Nat, (∀ b ∈ data, b < 256) →
      decode_chunks (dec_alphabet t) (encode t data) = some (pad_to_5 data)
  | [], _ => by
    have h : encode t [] = [] := by cases t <;> rfl
    rw [h]
    simp [decode_chunks, pad_to_5]
  | [b0], h => by
    rw [decode_chunks_encode_r1 t (h b0 (by simp))]
    simp [pad_to_5]
  | [b0, b1], h => by
    rw [decode_chunks_encode_r2 t (h b0 (by simp)) (h b1 (by simp))]
    simp [pad_to_5]
  | [b0, b1, b2], h => by
    rw [decode_chunks_encode_r3 t (h b0 (by simp)) (h b1 (by simp))
      (h b2 (by simp))]
    simp [pad_to_5]
  | [b0, b1, b2, b3], h => by
    rw [decode_chunks_encode_r4 t (h b0 (by simp)) (h b1 (by simp))
      (h b2 (by simp)) (h b3 (by simp))]
    simp [pad_to_5]
  | b0 :: b1 :: b2 :: b3 :: b4 :: rest, h => by
    have h0 := h b0 (by simp)
    have h1 := h b1 (by simp)
    have h2 := h b2 (by simp)
    have h3 := h b3 (by simp)
    have h4 := h b4 (by simp)
    have hrest : ∀ b ∈ rest, b < 256 := fun b hb => h b (by simp [hb])
    have ih := decode_chunks_encode t rest hrest
    have hg := decode_group_encode_group t h0 h1 h2 h3 h4
    simp only [encode_group] at hg
    rw [encode_cons5, pad_to_5_cons5]
    simp only [encode_group, List.cons_append, List.nil_append]
    simp only [decode_chunks, hg, ih]
    simp

/-! ### Padding-count analysis of encoder output -/

theorem encode_group_ne_61 (t : Base32Type) (b0 b1 b2 : Nat) {b3 : Nat}
    (h3 : b3 < 256) (b4 : Nat) :
    ∀ c ∈ encode_group (enc_alphabet t) b0 b1 b2 b3 b4, c ≠ 61 := by
  intro c hc
  simp only [encode_group, List.mem_cons, List.not_mem_nil, or_false] at hc
  rcases hc with h|h|h|h|h|h|h|h <;> subst h
  · exact symbol_ne_61 t (quintet0_lt b0)
  · exact symbol_ne_61 t (quintet1_lt b0 b1)
  · exact symbol_ne_61 t (quintet2_lt b1)
  · exact symbol_ne_61 t (quintet3_lt b1 b2)
  · exact symbol_ne_61 t (quintet4_lt b2 h3)
  · exact symbol_ne_61 t (quintet5_lt b3)
  · exact symbol_ne_61 t (quintet6_lt b3 b4)
  · exact symbol_ne_61 t (quintet7_lt b4)

theorem encode_chunks_ne_61 (t : Base32Type) :
    ∀ data : List Nat, (∀ b ∈ data, b < 256) →
      ∀ c ∈ encode_chunks (enc_alphabet t) data, c ≠ 61
  | [], _ => by
    intro c hc
    simp [encode_chunks] at hc
  | [b0], h => by
    have hz : (0 : Nat) < 256 := by norm_num
    exact encode_group_ne_61 t b0 0 0 hz 0
  | [b0, b1], h => by
    have hz : (0 : Nat) < 256 := by norm_num
    exact encode_group_ne_61 t b0 b1 0 hz 0
  | [b0, b1, b2], h => by
    have hz : (0 : Nat) < 256 := by norm_num
    exact encode_group_ne_61 t b0 b1 b2 hz 0
  | [b0, b1, b2, b3], h => by
    exact encode_group_ne_61 t b0 b1 b2 (h b3 (by simp)) 0
  | b0 :: b1 :: b2 :: b3 :: b4 :: rest, h => by
    intro c hc
    have hsplit : encode_chunks (enc_alphabet t)
        (b0 :: b1 :: b2 :: b3 :: b4 :: rest)
        = encode_group (enc_alphabet t) b0 b1 b2 b3 b4
          ++ encode_chunks (enc_alphabet t) rest := rfl
    rw [hsplit, List.mem_append] at hc
    rcases hc with hc | hc
    · exact encode_group_ne_61 t b0 b1 b2 (h b3 (by simp)) b4 c hc
    · exact encode_chunks_ne_61 t rest (fun b hb => h b (by simp [hb])) c hc

theorem takeWhile_61_nil {l : List Nat} (h : ∀ c ∈ l, c ≠ 61) :
    l.takeWhile (fun c => c == 61) = [] := by
  cases l with
  | nil => rfl
  | cons a as =>
    have ha := h a (by simp)
    simp [List.takeWhile_cons, ha]

theorem takeWhile_61_replicate (x : Nat) :
    (List.replicate x 61).takeWhile (fun c => c == 61)
      = List.replicate x 61 := by
  induction x with
  | zero => rfl
  | succ n ih => simp [List.replicate, List.takeWhile_cons, ih]

/-- A text without `'='` strips zero padding characters. -/
theorem num_padding_of_ne {l : List Nat} (h : ∀ c ∈ l, c ≠ 61) :
    num_padding l = 0 := by
  unfold num_padding
  rw [takeWhile_61_nil (fun c hc => h c (List.mem_reverse.mp hc))]
  simp

/-- A nonempty `'='`-free body followed by `x ≤ 6` padding characters
strips exactly `x`. -/
theorem num_padding_append_61 {body : List Nat} {x : Nat} (hx : x ≤ 6)
    (hbody : ∀ c ∈ body, c ≠ 61) (hne : body ≠ []) :
    num_padding (body ++ List.replicate x 61) = x := by
  unfold num_padding
  rw [List.reverse_append, List.reverse_replicate, List.takeWhile_append,
    takeWhile_61_replicate,
    takeWhile_61_nil (fun c hc => hbody c (List.mem_reverse.mp hc))]
  have hbl : 1 ≤ body.length := by
    have := List.length_pos.mpr hne
    omega
  simp
  omega

theorem num_extra_le6 {n : Nat} (h : n % 5 ≠ 0) : num_extra n ≤ 6 := by
  unfold num_extra
  omega

theorem pad_to_5_take (data : List Nat) :
    (pad_to_5 data).take data.length = data := by
  unfold pad_to_5
  exact List.take_left data _

/-! ### The round trip -/

/-- `decode ∘ encode` is the identity, for every variant and every byte
sequence. -/
theorem round_trip (t : Base32Type) (data : List Nat)
    (h : ∀ b ∈ data, b < 256) : decode t (encode t data) = some data := by
  have hdc := decode_chunks_encode t data h
  have hE : (encode_chunks (enc_alphabet t) data).length
      = (data.length + 4) / 5 * 8 := encode_chunks_length _ _
  have hne61 := encode_chunks_ne_61 t data h
  simp only [decode, hdc]
  by_cases hr : data.length % 5 = 0
  · have he : encode t data = encode_chunks (enc_alphabet t) data := by
      cases t <;> simp [encode, hr]
    rw [he, num_padding_of_ne hne61, hE]
    have hout : ((data.length + 4) / 5 * 8 - 0) * 5 / 8 = data.length := by
      omega
    rw [hout, pad_to_5_take]
  · have hxle := num_extra_le6 hr
    have hE8 : 8 ≤ (encode_chunks (enc_alphabet t) data).length := by
      rw [hE]
      omega
    have hbody : ∀ c ∈ (encode_chunks (enc_alphabet t) data).take
        ((encode_chunks (enc_alphabet t) data).length
          - num_extra data.length), c ≠ 61 :=
      fun c hc => hne61 c (List.take_subset _ _ hc)
    have hbodylen : ((encode_chunks (enc_alphabet t) data).take
        ((encode_chunks (enc_alphabet t) data).length
          - num_extra data.length)).length
        = (encode_chunks (enc_alphabet t) data).length
          - num_extra data.length := by
      rw [List.length_take]
      omega
    have hbodyne : (encode_chunks (enc_alphabet t) data).take
        ((encode_chunks (enc_alphabet t) data).length
          - num_extra data.length) ≠ [] := by
      rw [← List.length_pos, hbodylen]
      omega
    have hout : ((encode_chunks (enc_alphabet t) data).length
          - num_extra data.length) * 5 / 8 = data.length := by
      rw [hE]
      unfold num_extra
      have h5 : data.length % 5 = 1 ∨ data.length % 5 = 2
          ∨ data.length % 5 = 3 ∨ data.length % 5 = 4 := by omega
      obtain ⟨q, hq⟩ : ∃ q, data.length = 5 * q + data.length % 5 :=
        ⟨data.length / 5, by omega⟩
      rcases h5 with h5 | h5 | h5 | h5 <;> rw [h5] at hq <;>
        rw [h5, hq] <;> omega
    cases t
    · have he : encode Base32Type.RFC4648Base32 data
          = (encode_chunks (enc_alphabet Base32Type.RFC4648Base32) data).take
              ((encode_chunks (enc_alphabet Base32Type.RFC4648Base32)
                  data).length - num_extra data.length)
            ++ List.replicate (num_extra data.length) 61 := by
        simp [encode, hr]
      rw [he, num_padding_append_61 hxle hbody hbodyne, List.length_append,
        List.length_replicate, hbodylen]
      have harith :
          (encode_chunks (enc_alphabet Base32Type.RFC4648Base32) data).length
            - num_extra data.length + num_extra data.length
            - num_extra data.length
          = (encode_chunks (enc_alphabet Base32Type.RFC4648Base32)
              data).length - num_extra data.length := by
        omega
      rw [harith, hout, pad_to_5_take]
    · have he : encode Base32Type.CrockfordBase32 data
          = (encode_chunks (enc_alphabet Base32Type.CrockfordBase32)
              data).take
              ((encode_chunks (enc_alphabet Base32Type.CrockfordBase32)
                  data).length - num_extra data.length) := by
        simp [encode, hr]
      rw [he, num_padding_of_ne hbody, hbodylen]
      have harith :
          (encode_chunks (enc_alphabet Base32Type.CrockfordBase32)
              data).length - num_extra data.length - 0
          = (encode_chunks (enc_alphabet Base32Type.CrockfordBase32)
              data).length - num_extra data.length := by
        omega
      rw [harith, hout, pad_to_5_take]
    · have he : encode Base32Type.UnpaddedRFC4648Base32 data
          = (encode_chunks (enc_alphabet Base32Type.UnpaddedRFC4648Base32)
              data).take
              ((encode_chunks (enc_alphabet Base32Type.UnpaddedRFC4648Base32)
                  data).length - num_extra data.length) := by
        simp [encode, hr]
      rw [he, num_padding_of_ne hbody, hbodylen]
      have harith :
          (encode_chunks (enc_alphabet Base32Type.UnpaddedRFC4648Base32)
              data).length - num_extra data.length - 0
          = (encode_chunks (enc_alphabet Base32Type.UnpaddedRFC4648Base32)
              data).length - num_extra data.length := by
        omega
      rw [harith, hout, pad_to_5_take]

/-! ### Lengths and validity on the decode side -/

theorem lookup_chunk_length (table : List Nat) :
    ∀ {chunk qs : List Nat}, lookup_chunk table chunk = some qs →
      qs.length = chunk.length := by
  intro chunk
  induction chunk with
  | nil =>
    intro qs h
    simp only [lookup_chunk, Option.some.injEq] at h
    rw [← h]
  | cons c rest ih =>
    intro qs h
    simp only [lookup_chunk] at h
    cases hv : value_for table c <;> rw [hv] at h
    · simp at h
    · cases hl : lookup_chunk table rest <;> rw [hl] at h
      · simp at h
      · simp only [Option.some.injEq] at h
        rw [← h]
        simp only [List.length_cons]
        rw [ih hl]

theorem lookup_chunk_some (table : List Nat) :
    ∀ {chunk : List Nat}, (∀ c ∈ chunk, (value_for table c).isSome) →
      ∃ qs, lookup_chunk table chunk = some qs := by
  intro chunk
  induction chunk with
  | nil => exact fun _ => ⟨[], rfl⟩
  | cons c rest ih =>
    intro h
    obtain ⟨v, hv⟩ := Option.isSome_iff_exists.mp (h c (by simp))
    obtain ⟨vs, hvs⟩ := ih (fun x hx => h x (by simp [hx]))
    exact ⟨v :: vs, by simp [lookup_chunk, hv, hvs]⟩

theorem lookup_chunk_none (table : List Nat) :
    ∀ {chunk : List Nat} {c : Nat}, c ∈ chunk → value_for table c = none →
      lookup_chunk table chunk = none := by
  intro chunk
  induction chunk with
  | nil =>
    intro c hc
    simp at hc
  | cons a rest ih =>
    intro c hc hnone
    rcases List.mem_cons.mp hc with rfl | hcr
    · simp [lookup_chunk, hnone]
    · have hrest := ih hcr hnone
      cases hv : value_for table a <;> simp [lookup_chunk, hv, hrest]

theorem decode_group_length {table chunk bs : List Nat}
    (h : decode_group table chunk = some bs) : bs.length = 5 := by
  unfold decode_group at h
  cases hl : lookup_chunk table chunk <;> rw [hl] at h
  · simp at h
  · simp only [Option.some.injEq] at h
    rw [← h]
    rfl

theorem decode_group_some {table chunk : List Nat}
    (h : ∀ c ∈ chunk, (value_for table c).isSome) :
    ∃ bs, decode_group table chunk = some bs := by
  obtain ⟨qs, hqs⟩ := lookup_chunk_some table h
  exact ⟨recon5 (qs ++ List.replicate (8 - qs.length) 0),
    by simp [decode_group, hqs]⟩

theorem decode_group_none {table chunk : List Nat} {c : Nat} (hc : c ∈ chunk)
    (h : value_for table c = none) : decode_group table chunk = none := by
  simp [decode_group, lookup_chunk_none table hc h]

/-- One step of the decoder's chunk loop, in `take`/`drop` form. -/
theorem decode_chunks_step (table : List Nat) :
    ∀ l : List Nat, l ≠ [] →
      decode_chunks table l
        = match decode_group table (l.take 8), decode_chunks table (l.drop 8)
            with
          | some a, some b => some (a ++ b)
          | _, _ => none
  | [], h => absurd rfl h
  | [c0], _ => by
    cases hg : decode_group table [c0] <;> simp [decode_chunks, hg]
  | [c0, c1], _ => by
    cases hg : decode_group table [c0, c1] <;> simp [decode_chunks, hg]
  | [c0, c1, c2], _ => by
    cases hg : decode_group table [c0, c1, c2] <;> simp [decode_chunks, hg]
  | [c0, c1, c2, c3], _ => by
    cases hg : decode_group table [c0, c1, c2, c3] <;>
      simp [decode_chunks, hg]
  | [c0, c1, c2, c3, c4], _ => by
    cases hg : decode_group table [c0, c1, c2, c3, c4] <;>
      simp [decode_chunks, hg]
  | [c0, c1, c2, c3, c4, c5], _ => by
    cases hg : decode_group table [c0, c1, c2, c3, c4, c5] <;>
      simp [decode_chunks, hg]
  | [c0, c1, c2, c3, c4, c5, c6], _ => by
    cases hg : decode_group table [c0, c1, c2, c3, c4, c5, c6] <;>
      simp [decode_chunks, hg]
  | c0 :: c1 :: c2 :: c3 :: c4 :: c5 :: c6 :: c7 :: rest, _ => by
    rfl

theorem decode_chunks_length_aux (table : List Nat) :
    ∀ n (l bs : List Nat), l.length ≤ n → decode_chunks table l = some bs →
      bs.length = 5 * ((l.length + 7) / 8) := by
  intro n
  induction n with
  | zero =>
    intro l bs hl h
    have hnil : l = [] := List.eq_nil_of_length_eq_zero (by omega)
    subst hnil
    simp only [decode_chunks, Option.some.injEq] at h
    rw [← h]
    rfl
  | succ n ih =>
    intro l bs hl h
    cases l with
    | nil =>
      simp only [decode_chunks, Option.some.injEq] at h
      rw [← h]
      rfl
    | cons c rest =>
      rw [decode_chunks_step table _ (by simp)] at h
      cases hg : decode_group table ((c :: rest).take 8) <;> rw [hg] at h
      · simp at h
      · cases hd : decode_chunks table ((c :: rest).drop 8) <;> rw [hd] at h
        · simp at h
        · simp only [Option.some.injEq] at h
          have ihd := ih ((c :: rest).drop 8) _
            (by simp only [List.length_cons] at hl;
                simp only [List.length_drop, List.length_cons]; omega) hd
          have hgl := decode_group_length hg
          rw [← h]
          simp only [List.length_append, hgl, ihd, List.length_drop,
            List.length_cons]
          omega

theorem decode_chunks_length {table l bs : List Nat}
    (h : decode_chunks table l = some bs) :
    bs.length = 5 * ((l.length + 7) / 8) :=
  decode_chunks_length_aux table l.length l bs (by omega) h

theorem decode_chunks_some_aux (table : List Nat) :
    ∀ n (l : List Nat), l.length ≤ n →
      (∀ c ∈ l, (value_for table c).isSome) →
      ∃ bs, decode_chunks table l = some bs := by
  intro n
  induction n with
  | zero =>
    intro l hl _
    have hnil : l = [] := List.eq_nil_of_length_eq_zero (by omega)
    subst hnil
    exact ⟨[], rfl⟩
  | succ n ih =>
    intro l hl h
    cases l with
    | nil => exact ⟨[], rfl⟩
    | cons c rest =>
      obtain ⟨a, ha⟩ := decode_group_some
        (fun x hx => h x (List.take_subset _ _ hx))
      obtain ⟨b, hb⟩ := ih ((c :: rest).drop 8)
        (by simp only [List.length_cons] at hl;
            simp only [List.length_drop, List.length_cons]; omega)
        (fun x hx => h x (List.drop_subset _ _ hx))
      refine ⟨a ++ b, ?_⟩
      rw [decode_chunks_step table _ (by simp), ha, hb]

theorem decode_chunks_some {table l : List Nat}
    (h : ∀ c ∈ l, (value_for table c).isSome) :
    ∃ bs, decode_chunks table l = some bs :=
  decode_chunks_some_aux table l.length l (by omega) h

theorem decode_chunks_none_aux (table : List Nat) :
    ∀ n (l : List Nat) (c : Nat), l.length ≤ n → c ∈ l →
      value_for table c = none → decode_chunks table l = none := by
  intro n
  induction n with
  | zero =>
    intro l c hl hc _
    have hnil : l = [] := List.eq_nil_of_length_eq_zero (by omega)
    subst hnil
    simp at hc
  | succ n ih =>
    intro l c hl hc hnone
    cases l with
    | nil => simp at hc
    | cons a rest =>
      rw [decode_chunks_step table _ (by simp)]
      have hsplit : c ∈ (a :: rest).take 8 ++ (a :: rest).drop 8 := by
        rw [List.take_append_drop]
        exact hc
      rcases List.mem_append.mp hsplit with hmem | hmem
      · rw [decode_group_none hmem hnone]
        all_goals cases hdd : decode_chunks table ((a :: rest).drop 8) <;> simp
      · rw [ih ((a :: rest).drop 8) c
          (by simp only [List.length_cons] at hl;
              simp only [List.length_drop, List.length_cons]; omega)
          hmem hnone]
        all_goals cases hgg : decode_group table ((a :: rest).take 8) <;> simp
  
theorem decode_chunks_invalid {table l : List Nat} {c : Nat} (hc : c ∈ l)
    (hnone : value_for table c = none) : decode_chunks table l = none :=
  decode_chunks_none_aux table l.length l c (by omega) hc hnone

/-! ### Pointwise congruence of decode -/

theorem lookup_chunk_congr (table : List Nat) {l1 l2 : List Nat}
    (h : List.Forall₂ (fun a b => value_for table a = value_for table b)
      l1 l2) :
    lookup_chunk table l1 = lookup_chunk table l2 := by
  induction h with
  | nil => rfl
  | cons hab hrest ih => simp only [lookup_chunk, hab, ih]

theorem decode_group_congr {table c1 c2 : List Nat}
    (h : lookup_chunk table c1 = lookup_chunk table c2) :
    decode_group table c1 = decode_group table c2 := by
  simp only [decode_group, h]

theorem decode_chunks_congr_aux (table : List Nat) :
    ∀ n (l1 l2 : List Nat), l1.length ≤ n →
      List.Forall₂ (fun a b => value_for table a = value_for table b) l1 l2 →
      decode_chunks table l1 = decode_chunks table l2 := by
  intro n
  induction n with
  | zero =>
    intro l1 l2 hl h
    have h1 : l1 = [] := List.eq_nil_of_length_eq_zero (by omega)
    subst h1
    have h2 : l2 = [] := List.forall₂_nil_left_iff.mp h
    subst h2
    rfl
  | succ n ih =>
    intro l1 l2 hl h
    cases h with
    | nil => rfl
    | @cons a b as bs hab hrest =>
      have hfull : List.Forall₂
          (fun a b => value_for table a = value_for table b)
          (a :: as) (b :: bs) := List.Forall₂.cons hab hrest
      rw [decode_chunks_step table (a :: as) (by simp),
        decode_chunks_step table (b :: bs) (by simp),
        decode_group_congr
          (lookup_chunk_congr table (List.forall₂_take 8 hfull)),
        ih ((a :: as).drop 8) ((b :: bs).drop 8)
          (by simp only [List.length_cons] at hl;
              simp only [List.length_drop, List.length_cons]; omega)
          (List.forall₂_drop 8 hfull)]

theorem decode_chunks_congr (table : List Nat) {l1 l2 : List Nat}
    (h : List.Forall₂ (fun a b => value_for table a = value_for table b)
      l1 l2) :
    decode_chunks table l1 = decode_chunks table l2 :=
  decode_chunks_congr_aux table l1.length l1 l2 (by omega) h

theorem takeWhile61_len_congr {l1 l2 : List Nat}
    (h : List.Forall₂ (fun a b => a = 61 ↔ b = 61) l1 l2) :
    (l1.takeWhile (fun c => c == 61)).length
      = (l2.takeWhile (fun c => c == 61)).length := by
  induction h with
  | nil => rfl
  | @cons a b as bs hab hrest ih =>
    by_cases ha : a = 61
    · have hb : b = 61 := hab.mp ha
      simp [List.takeWhile_cons, ha, hb, ih]
    · have hb : ¬b = 61 := fun hb => ha (hab.mpr hb)
      simp [List.takeWhile_cons, ha, hb]

theorem num_padding_congr {l1 l2 : List Nat}
    (h61 : List.Forall₂ (fun a b => a = 61 ↔ b = 61) l1 l2) :
    num_padding l1 = num_padding l2 := by
  have hlen : l1.length = l2.length := List.Forall₂.length_eq h61
  unfold num_padding
  rw [hlen, takeWhile61_len_congr (List.rel_reverse h61)]

/-- Two texts whose characters pairwise decode alike (and agree on being
`'='`) decode to the same result, for any variant. -/
theorem decode_congr (t : Base32Type) {l1 l2 : List Nat}
    (hv : List.Forall₂ (fun a b =>
      value_for (dec_alphabet t) a = value_for (dec_alphabet t) b) l1 l2)
    (h61 : List.Forall₂ (fun a b => a = 61 ↔ b = 61) l1 l2) :
    decode t l1 = decode t l2 := by
  have hlen : l1.length = l2.length := List.Forall₂.length_eq hv
  simp only [decode, decode_chunks_congr (dec_alphabet t) hv,
    num_padding_congr h61, hlen]

theorem forall₂_self {R : Nat → Nat → Prop} (hrefl : ∀ a, R a a) :
    ∀ l : List Nat, List.Forall₂ R l l
  | [] => List.Forall₂.nil
  | a :: as => List.Forall₂.cons (hrefl a) (forall₂_self hrefl as)

theorem forall₂_set {R : Nat → Nat → Prop} (hrefl : ∀ a, R a a) :
    ∀ (l : List Nat) (i : Nat) (c d : Nat), R c d →
      List.Forall₂ R (l.set i c) (l.set i d)
  | [], _, _, _, _ => List.Forall₂.nil
  | a :: as, 0, c, d, h => by
    simpa using List.Forall₂.cons h (forall₂_self hrefl as)
  | a :: as, i + 1, c, d, h => by
    simpa using List.Forall₂.cons (hrefl a) (forall₂_set hrefl as i c d h)

theorem forall₂_map {R : Nat → Nat → Prop} (f : Nat → Nat)
    (h : ∀ a, R a (f a)) : ∀ l : List Nat, List.Forall₂ R l (l.map f)
  | [] => List.Forall₂.nil
  | a :: as => List.Forall₂.cons (h a) (forall₂_map f h as)

theorem to_uppercase_to_lowercase (c : Nat) :
    to_uppercase (to_lowercase c) = to_uppercase c := by
  unfold to_uppercase to_lowercase
  split_ifs <;> omega

theorem value_for_to_lowercase (table : List Nat) (c : Nat) :
    value_for table (to_lowercase c) = value_for table c := by
  unfold value_for
  rw [to_uppercase_to_lowercase]

theorem to_lowercase_61 (c : Nat) : to_lowercase c = 61 ↔ c = 61 := by
  unfold to_lowercase
  split_ifs <;> omega

/-! ### The claims -/

/-- C1: for every variant and every byte sequence, decoding the encoding
of that sequence under the same variant succeeds and returns exactly the
original sequence: `decode(variant, encode(variant, bytes)) = some bytes`. -/
theorem claim_C1 (t : Base32Type) (data : List Nat)
    (h : ∀ b ∈ data, b < 256) : decode t (encode t data) = some data :=
  round_trip t data h

theorem claim_C1_witness :
    (∀ b ∈ [0, 7, 255, 100, 200, 42], b < 256)
    ∧ decode Base32Type.CrockfordBase32
        (encode Base32Type.CrockfordBase32 [0, 7, 255, 100, 200, 42])
      = some [0, 7, 255, 100, 200, 42] :=
  ⟨by decide, claim_C1 Base32Type.CrockfordBase32 [0, 7, 255, 100, 200, 42]
    (by decide)⟩

/-- C2: for every full 5-octet group `b0..b4`, encode emits 8 symbols whose
quintet values are the MSB-first 5-bit slices of the 40-bit concatenation
`N = b0‖b1‖b2‖b3‖b4` (so quintet `i` is `N >> (35-5i) mod 32`), each
rendered through the variant's alphabet; in particular
`encode(Crockford, [0xF8,0x3E,0x0F,0x83,0xE0]) = "Z0Z0Z0Z0"`. -/
theorem claim_C2 (t : Base32Type) {b0 b1 b2 b3 b4 : Nat} (h0 : b0 < 256)
    (h1 : b1 < 256) (h2 : b2 < 256) (h3 : b3 < 256) (h4 : b4 < 256) :
    encode t [b0, b1, b2, b3, b4]
      = [(enc_alphabet t).getD
          ((b0 * 4294967296 + b1 * 16777216 + b2 * 65536 + b3 * 256 + b4)
            / 34359738368 % 32) 0,
         (enc_alphabet t).getD
          ((b0 * 4294967296 + b1 * 16777216 + b2 * 65536 + b3 * 256 + b4)
            / 1073741824 % 32) 0,
         (enc_alphabet t).getD
          ((b0 * 4294967296 + b1 * 16777216 + b2 * 65536 + b3 * 256 + b4)
            / 33554432 % 32) 0,
         (enc_alphabet t).getD
          ((b0 * 4294967296 + b1 * 16777216 + b2 * 65536 + b3 * 256 + b4)
            / 1048576 % 32) 0,
         (enc_alphabet t).getD
          ((b0 * 4294967296 + b1 * 16777216 + b2 * 65536 + b3 * 256 + b4)
            / 32768 % 32) 0,
         (enc_alphabet t).getD
          ((b0 * 4294967296 + b1 * 16777216 + b2 * 65536 + b3 * 256 + b4)
            / 1024 % 32) 0,
         (enc_alphabet t).getD
          ((b0 * 4294967296 + b1 * 16777216 + b2 * 65536 + b3 * 256 + b4)
            / 32 % 32) 0,
         (enc_alphabet t).getD
          ((b0 * 4294967296 + b1 * 16777216 + b2 * 65536 + b3 * 256 + b4)
            % 32) 0]
    ∧ encode Base32Type.CrockfordBase32 [0xF8, 0x3E, 0x0F, 0x83, 0xE0]
      = [90, 48, 90, 48, 90, 48, 90, 48] := by
  constructor
  · have he : encode t [b0, b1, b2, b3, b4]
        = encode_group (enc_alphabet t) b0 b1 b2 b3 b4 := by
      cases t <;> with_unfolding_all rfl
    rw [he]
    unfold encode_group
    rw [quintet0_eq h0, quintet1_eq h0 h1, quintet2_eq h1, quintet3_eq h1 h2,
      quintet4_eq h2 h3, quintet5_eq h3, quintet6_eq h3 h4, quintet7_eq h4]
    simp only [List.cons.injEq, and_true]
    refine ⟨?_, ?_, ?_, ?_, ?_, ?_, ?_, ?_⟩ <;>
      exact congrArg (fun q => (enc_alphabet t).getD q 0) (by omega)
  · decide

theorem claim_C2_witness :
    (0xF8 : Nat) < 256 ∧
    (encode Base32Type.CrockfordBase32 [0xF8, 0x3E, 0x0F, 0x83, 0xE0]
      = [(enc_alphabet Base32Type.CrockfordBase32).getD
          ((0xF8 * 4294967296 + 0x3E * 16777216 + 0x0F * 65536 + 0x83 * 256
            + 0xE0) / 34359738368 % 32) 0,
         (enc_alphabet Base32Type.CrockfordBase32).getD
          ((0xF8 * 4294967296 + 0x3E * 16777216 + 0x0F * 65536 + 0x83 * 256
            + 0xE0) / 1073741824 % 32) 0,
         (enc_alphabet Base32Type.CrockfordBase32).getD
          ((0xF8 * 4294967296 + 0x3E * 16777216 + 0x0F * 65536 + 0x83 * 256
            + 0xE0) / 33554432 % 32) 0,
         (enc_alphabet Base32Type.CrockfordBase32).getD
          ((0xF8 * 4294967296 + 0x3E * 16777216 + 0x0F * 65536 + 0x83 * 256
            + 0xE0) / 1048576 % 32) 0,
         (enc_alphabet Base32Type.CrockfordBase32).getD
          ((0xF8 * 4294967296 + 0x3E * 16777216 + 0x0F * 65536 + 0x83 * 256
            + 0xE0) / 32768 % 32) 0,
         (enc_alphabet Base32Type.CrockfordBase32).getD
          ((0xF8 * 4294967296 + 0x3E * 16777216 + 0x0F * 65536 + 0x83 * 256
            + 0xE0) / 1024 % 32) 0,
         (enc_alphabet Base32Type.CrockfordBase32).getD
          ((0xF8 * 4294967296 + 0x3E * 16777216 + 0x0F * 65536 + 0x83 * 256
            + 0xE0) / 32 % 32) 0,
         (enc_alphabet Base32Type.CrockfordBase32).getD
          ((0xF8 * 4294967296 + 0x3E * 16777216 + 0x0F * 65536 + 0x83 * 256
            + 0xE0) % 32) 0]) :=
  ⟨by decide, (claim_C2 Base32Type.CrockfordBase32 (by decide) (by decide)
    (by decide) (by decide) (by decide)).1⟩

/-- C3: for every byte sequence whose length `n` has remainder
`r = n mod 5 ≠ 0`, the final partial group contributes exactly
`⌈r*8/5⌉ = (r*8+4)/5` non-padding symbols; under `RFC4648Base32` (padded)
these are followed by `8 - (r*8+4)/5` padding characters `'='` so the
output length is `8*⌈n/5⌉`, while under the Crockford and unpadded
variants no `'='` is produced and the output length is
`8*(n/5) + (r*8+4)/5`.  Encode itself is a total function, so it never
fails. -/
theorem claim_C3 (t : Base32Type) (data : List Nat)
    (hb : ∀ b ∈ data, b < 256) (hr : data.length % 5 ≠ 0) :
    (t = Base32Type.RFC4648Base32 →
      (encode t data).length = 8 * ((data.length + 4) / 5)
      ∧ (encode t data).drop
          (8 * (data.length / 5) + (data.length % 5 * 8 + 4) / 5)
        = List.replicate (8 - (data.length % 5 * 8 + 4) / 5) 61
      ∧ ∀ c ∈ (encode t data).take
          (8 * (data.length / 5) + (data.length % 5 * 8 + 4) / 5), c ≠ 61)
    ∧ ((t = Base32Type.CrockfordBase32
        ∨ t = Base32Type.UnpaddedRFC4648Base32) →
      (encode t data).length
        = 8 * (data.length / 5) + (data.length % 5 * 8 + 4) / 5
      ∧ ∀ c ∈ encode t data, c ≠ 61) := by
  have hE := encode_chunks_length (enc_alphabet t) data
  have hne61 := encode_chunks_ne_61 t data hb
  have hxle := num_extra_le6 hr
  have hxdef : num_extra data.length
      = 8 - (data.length % 5 * 8 + 4) / 5 := rfl
  have hE8 : 8 ≤ (encode_chunks (enc_alphabet t) data).length := by
    rw [hE]
    omega
  constructor
  · rintro rfl
    have he : encode Base32Type.RFC4648Base32 data
        = (encode_chunks (enc_alphabet Base32Type.RFC4648Base32) data).take
            ((encode_chunks (enc_alphabet Base32Type.RFC4648Base32)
                data).length - num_extra data.length)
          ++ List.replicate (num_extra data.length) 61 := by
      simp [encode, hr]
    have hblen : ((encode_chunks (enc_alphabet Base32Type.RFC4648Base32)
          data).take
          ((encode_chunks (enc_alphabet Base32Type.RFC4648Base32)
              data).length - num_extra data.length)).length
        = (encode_chunks (enc_alphabet Base32Type.RFC4648Base32)
            data).length - num_extra data.length := by
      rw [List.length_take]
      omega
    have harg : 8 * (data.length / 5) + (data.length % 5 * 8 + 4) / 5
        = ((encode_chunks (enc_alphabet Base32Type.RFC4648Base32) data).take
          ((encode_chunks (enc_alphabet Base32Type.RFC4648Base32)
              data).length - num_extra data.length)).length := by
      rw [hblen, hE, hxdef]
      omega
    refine ⟨?_, ?_, ?_⟩
    · rw [he]
      simp only [List.length_append, List.length_replicate, hblen]
      omega
    · rw [he, harg, List.drop_left, hxdef]
    · intro c hc
      rw [he, harg, List.take_left] at hc
      exact hne61 c (List.take_subset _ _ hc)
  · rintro (rfl | rfl)
    · have he : encode Base32Type.CrockfordBase32 data
          = (encode_chunks (enc_alphabet Base32Type.CrockfordBase32)
              data).take
              ((encode_chunks (enc_alphabet Base32Type.CrockfordBase32)
                  data).length - num_extra data.length) := by
        simp [encode, hr]
      refine ⟨?_, ?_⟩
      · rw [he, List.length_take, hE, hxdef]
        omega
      · intro c hc
        rw [he] at hc
        exact hne61 c (List.take_subset _ _ hc)
    · have he : encode Base32Type.UnpaddedRFC4648Base32 data
          = (encode_chunks (enc_alphabet Base32Type.UnpaddedRFC4648Base32)
              data).take
              ((encode_chunks (enc_alphabet Base32Type.UnpaddedRFC4648Base32)
                  data).length - num_extra data.length) := by
        simp [encode, hr]
      refine ⟨?_, ?_⟩
      · rw [he, List.length_take, hE, hxdef]
        omega
      · intro c hc
        rw [he] at hc
        exact hne61 c (List.take_subset _ _ hc)

theorem claim_C3_witness :
    (∀ b ∈ [17, 250], b < 256) ∧ ([17, 250] : List Nat).length % 5 ≠ 0
    ∧ (Base32Type.RFC4648Base32 = Base32Type.RFC4648Base32 →
      (encode Base32Type.RFC4648Base32 [17, 250]).length = 8 * ((2 + 4) / 5)
      ∧ (encode Base32Type.RFC4648Base32 [17, 250]).drop
          (8 * (2 / 5) + (2 % 5 * 8 + 4) / 5)
        = List.replicate (8 - (2 % 5 * 8 + 4) / 5) 61
      ∧ ∀ c ∈ (encode Base32Type.RFC4648Base32 [17, 250]).take
          (8 * (2 / 5) + (2 % 5 * 8 + 4) / 5), c ≠ 61) := by
  refine ⟨by decide, by decide, ?_⟩
  exact (claim_C3 Base32Type.RFC4648Base32 [17, 250] (by decide)
    (by decide)).1

/-- C4: for every variant and input text, decode strips the run of
trailing `'='` characters capped at 6, subtracts that count from the text
length, and on success returns exactly `⌊unpaddedLength*5/8⌋` bytes. -/
theorem claim_C4 (t : Base32Type) (data bs : List Nat)
    (h : decode t data = some bs) :
    num_padding data
      = min ((data.reverse.takeWhile fun c => c == 61).length)
          (min 6 data.length)
    ∧ bs.length = (data.length - num_padding data) * 5 / 8 := by
  refine ⟨rfl, ?_⟩
  unfold decode at h
  cases hdc : decode_chunks (dec_alphabet t) data <;> rw [hdc] at h
  · simp at h
  · simp only [Option.some.injEq] at h
    have hrl := decode_chunks_length hdc
    have hple : num_padding data ≤ data.length := by
      unfold num_padding
      omega
    rw [← h, List.length_take]
    omega

theorem claim_C4_witness :
    decode Base32Type.RFC4648Base32 [55, 65, 55, 72, 55, 65, 89, 61]
        = some [0xF8, 0x3E, 0x7F, 0x83]
    ∧ num_padding [55, 65, 55, 72, 55, 65, 89, 61]
        = min (([55, 65, 55, 72, 55, 65, 89, 61].reverse.takeWhile
            fun c => c == 61).length)
          (min 6 ([55, 65, 55, 72, 55, 65, 89, 61] : List Nat).length)
    ∧ ([0xF8, 0x3E, 0x7F, 0x83] : List Nat).length
        = (([55, 65, 55, 72, 55, 65, 89, 61] : List Nat).length
          - num_padding [55, 65, 55, 72, 55, 65, 89, 61]) * 5 / 8 :=
  ⟨by decide,
    claim_C4 Base32Type.RFC4648Base32 [55, 65, 55, 72, 55, 65, 89, 61]
      [0xF8, 0x3E, 0x7F, 0x83] (by decide)⟩

/-- C5: under Crockford, `'I'`, `'i'`, `'L'`, `'l'` decode as `'1'` (value
1) and `'O'`, `'o'` decode as `'0'` (value 0) — the raw table maps indices
25 and 28 to 1 and index 31 to 0 — so replacing such a letter at any
position by its digit counterpart never changes the decode result; in
particular `decode(Crockford, "IiLlOo") = decode(Crockford, "111100")`. -/
theorem claim_C5 :
    (CROCKFORD_INV_ALPHABET.getD 25 255 = 1
      ∧ CROCKFORD_INV_ALPHABET.getD 28 255 = 1
      ∧ CROCKFORD_INV_ALPHABET.getD 31 255 = 0
      ∧ value_for CROCKFORD_INV_ALPHABET 73 = some 1
      ∧ value_for CROCKFORD_INV_ALPHABET 105 = some 1
      ∧ value_for CROCKFORD_INV_ALPHABET 76 = some 1
      ∧ value_for CROCKFORD_INV_ALPHABET 108 = some 1
      ∧ value_for CROCKFORD_INV_ALPHABET 79 = some 0
      ∧ value_for CROCKFORD_INV_ALPHABET 111 = some 0
      ∧ value_for CROCKFORD_INV_ALPHABET 49 = some 1
      ∧ value_for CROCKFORD_INV_ALPHABET 48 = some 0)
    ∧ (∀ (text : List Nat) (i c d : Nat),
        (c, d) ∈ [(73, 49), (105, 49), (76, 49), (108, 49), (79, 48),
          (111, 48)] →
        decode Base32Type.CrockfordBase32 (text.set i c)
          = decode Base32Type.CrockfordBase32 (text.set i d))
    ∧ decode Base32Type.CrockfordBase32 [73, 105, 76, 108, 79, 111]
      = decode Base32Type.CrockfordBase32 [49, 49, 49, 49, 48, 48] := by
  refine ⟨by decide, ?_, by decide⟩
  intro text i c d hm
  simp only [List.mem_cons, List.not_mem_nil, or_false] at hm
  have hv : value_for (dec_alphabet Base32Type.CrockfordBase32) c
      = value_for (dec_alphabet Base32Type.CrockfordBase32) d := by
    rcases hm with h | h | h | h | h | h <;>
      (injection h with h1 h2; subst h1; subst h2; decide)
  have h61 : c = 61 ↔ d = 61 := by
    rcases hm with h | h | h | h | h | h <;>
      (injection h with h1 h2; subst h1; subst h2; decide)
  exact decode_congr Base32Type.CrockfordBase32
    (@forall₂_set (fun a b => value_for
        (dec_alphabet Base32Type.CrockfordBase32) a
      = value_for (dec_alphabet Base32Type.CrockfordBase32) b)
      (fun a => rfl) text i c d hv)
    (@forall₂_set (fun a b => a = 61 ↔ b = 61) (fun a => Iff.rfl)
      text i c d h61)

theorem claim_C5_witness :
    ((73, 49) ∈ [(73, 49), (105, 49), (76, 49), (108, 49), (79, 48),
      (111, 48)])
    ∧ decode Base32Type.CrockfordBase32 ([73, 65].set 0 73)
      = decode Base32Type.CrockfordBase32 ([73, 65].set 0 49) :=
  ⟨by decide, claim_C5.2.1 [73, 65] 0 73 49 (by decide)⟩

/-- C6: Crockford decoding is case-insensitive: decoding uppercases every
character before the table lookup, so
`decode(Crockford, text) = decode(Crockford, lowercase(text))` for every
text, success or failure. -/
theorem claim_C6 (text : List Nat) :
    decode Base32Type.CrockfordBase32 text
      = decode Base32Type.CrockfordBase32 (text.map to_lowercase) :=
  decode_congr Base32Type.CrockfordBase32
    (forall₂_map to_lowercase
      (fun a => (value_for_to_lowercase _ a).symm) text)
    (forall₂_map to_lowercase (fun a => (to_lowercase_61 a).symm) text)

/-- C7: for every variant, a character whose lookup (after uppercasing and
alias resolution) falls outside the table range or hits the sentinel makes
the whole decode fail with no partial output; in particular
`decode(variant, ",")` fails for all three variants. -/
theorem claim_C7 (t : Base32Type) (text : List Nat) (c : Nat)
    (hc : c ∈ text) (hinv : value_for (dec_alphabet t) c = none) :
    decode t text = none ∧ ∀ v : Base32Type, decode v [44] = none := by
  constructor
  · simp [decode, decode_chunks_invalid hc hinv]
  · intro v
    cases v <;> decide

theorem claim_C7_witness :
    ((44 : Nat) ∈ [44])
    ∧ value_for (dec_alphabet Base32Type.CrockfordBase32) 44 = none
    ∧ decode Base32Type.CrockfordBase32 [44] = none :=
  ⟨by decide, by decide,
    (claim_C7 Base32Type.CrockfordBase32 [44] 44 (by decide) (by decide)).1⟩

/-- C8: decode never fails because of length or non-zero slack bits: any
text of valid non-padding characters, of any length (including lengths no
encoder output can have), decodes successfully to `⌊length*5/8⌋` bytes;
e.g. `decode(Crockford,"AB") = decode(Crockford,"AA") = some [0x52]` and a
single valid character decodes to `some []`. -/
theorem claim_C8 (t : Base32Type) (text : List Nat)
    (h : ∀ c ∈ text, (value_for (dec_alphabet t) c).isSome ∧ c ≠ 61) :
    (∃ bs, decode t text = some bs ∧ bs.length = text.length * 5 / 8)
    ∧ decode Base32Type.CrockfordBase32 [65, 66] = some [0x52]
    ∧ decode Base32Type.CrockfordBase32 [65, 65] = some [0x52]
    ∧ ∀ (v : Base32Type) (c : Nat), (value_for (dec_alphabet v) c).isSome →
        c ≠ 61 → decode v [c] = some [] := by
  have main : ∀ (v : Base32Type) (l : List Nat),
      (∀ c ∈ l, (value_for (dec_alphabet v) c).isSome ∧ c ≠ 61) →
      ∃ bs, decode v l = some bs ∧ bs.length = l.length * 5 / 8 := by
    intro v l hl
    obtain ⟨bs0, hbs0⟩ := decode_chunks_some (fun c hc => (hl c hc).1)
    have hrl := decode_chunks_length hbs0
    have hpad : num_padding l = 0 :=
      num_padding_of_ne (fun c hc => (hl c hc).2)
    refine ⟨bs0.take ((l.length - num_padding l) * 5 / 8), ?_, ?_⟩
    · simp [decode, hbs0]
    · rw [List.length_take, hpad]
      omega
  refine ⟨main t text h, by decide, by decide, ?_⟩
  intro v c h1 h2
  obtain ⟨bs, hbs, hlen⟩ := main v [c] (by
    intro x hx
    rcases List.mem_cons.mp hx with rfl | hx
    · exact ⟨h1, h2⟩
    · simp at hx)
  have : bs = [] := List.eq_nil_of_length_eq_zero (by
    rw [hlen]
    simp)
  rw [hbs, this]

theorem claim_C8_witness :
    (∀ c ∈ [65, 66],
      (value_for (dec_alphabet Base32Type.CrockfordBase32) c).isSome
        ∧ c ≠ 61)
    ∧ (∃ bs, decode Base32Type.CrockfordBase32 [65, 66] = some bs
        ∧ bs.length = ([65, 66] : List Nat).length * 5 / 8) :=
  ⟨by decide, (claim_C8 Base32Type.CrockfordBase32 [65, 66] (by decide)).1⟩

/-- C9: `'='` is not rejected by the RFC4648 inverse table (index 13 holds
quintet value 0), and the trailing-`'='` stripping runs for every variant,
so the unpadded RFC4648 variant accepts padded input:
`decode(RFC4648Unpadded, encode(RFC4648Padded, bytes)) = some bytes`, and
`"========"` decodes under the padded variant to `some [0]`. -/
theorem claim_C9 :
    RFC4648_INV_ALPHABET.getD 13 255 = 0
    ∧ value_for RFC4648_INV_ALPHABET 61 = some 0
    ∧ (∀ data : List Nat, (∀ b ∈ data, b < 256) →
        decode Base32Type.UnpaddedRFC4648Base32
          (encode Base32Type.RFC4648Base32 data) = some data)
    ∧ decode Base32Type.RFC4648Base32 [61, 61, 61, 61, 61, 61, 61, 61]
      = some [0] := by
  refine ⟨by decide, by decide, ?_, by decide⟩
  intro data h
  have hsame : decode Base32Type.UnpaddedRFC4648Base32
      (encode Base32Type.RFC4648Base32 data)
      = decode Base32Type.RFC4648Base32
        (encode Base32Type.RFC4648Base32 data) := rfl
  rw [hsame]
  exact round_trip Base32Type.RFC4648Base32 data h

theorem claim_C9_witness :
    (∀ b ∈ [200, 1, 2], b < 256)
    ∧ decode Base32Type.UnpaddedRFC4648Base32
        (encode Base32Type.RFC4648Base32 [200, 1, 2]) = some [200, 1, 2] :=
  ⟨by decide, claim_C9.2.2.1 [200, 1, 2] (by decide)⟩

/-- C10: for every variant, a text containing any non-ASCII byte is
rejected: decode fails (the decoder's single failure value `none`, which
§7 of the spec calls `NonAsciiInput`) and produces no partial output. -/
theorem claim_C10 (t : Base32Type) (text : List Nat) (c : Nat)
    (hc : c ∈ text) (h128 : 128 ≤ c) (h256 : c < 256) :
    decode t text = none := by
  have hup : to_uppercase c = c := by
    unfold to_uppercase
    rw [if_neg (by omega)]
  have hnone : value_for (dec_alphabet t) c = none := by
    unfold value_for
    rw [hup]
    have hlen : (dec_alphabet t).length = 43 := by cases t <;> rfl
    have hg : (dec_alphabet t).get? ((c + 256 - 48) % 256) = none := by
      apply List.get?_eq_none.mpr
      rw [hlen]
      omega
    rw [hg]
  simp [decode, decode_chunks_invalid hc hnone]

theorem claim_C10_witness :
    ((200 : Nat) ∈ [65, 200]) ∧ (128 : Nat) ≤ 200 ∧ (200 : Nat) < 256
    ∧ decode Base32Type.CrockfordBase32 [65, 200] = none :=
  ⟨by decide, by decide, by decide,
    claim_C10 Base32Type.CrockfordBase32 [65, 200] 200 (by decide)
      (by decide) (by decide)⟩

end Base32
